import Mathlib

/-!
Verification of the warehouse load engine of the Financial-Data-Pipeline
repository: a shallow embedding of the dimension-resolution, fact-transform,
validation and fact-loading logic (src/src/loaders/data_loader.py,
src/src/loaders/sec_loader.py, src/src/transformers/data_transformer.py,
src/src/utils/validators.py), together with theorems settling the spec's
claims about idempotence, key uniqueness, derived metrics, validation
severity and upsert frame conditions.

Numeric values flowing through pandas DataFrames are embedded as `PFloat`:
an exact rational, NaN, or a signed infinity, with arithmetic following
IEEE/numpy semantics on those constructors (exact rationals stand in for
binary floats; the claims under study do not depend on binary rounding
error).  A missing value (pandas NaN) is `PFloat.nan`.
-/

/-- A pandas/numpy floating-point cell: NaN (also "missing"), a signed
infinity, or a finite value modelled as an exact rational. -/
inductive PFloat where
  | nan : PFloat
  | inf : Bool → PFloat   -- `inf true` = +∞, `inf false` = −∞
  | val : ℚ → PFloat
deriving DecidableEq, Repr

namespace PFloat

/-- IEEE subtraction as performed by `series_a - series_b` in pandas. -/
def sub : PFloat → PFloat → PFloat
  | nan, _ => nan
  | _, nan => nan
  | inf p, inf q => if p = q then nan else inf p
  | inf p, val _ => inf p
  | val _, inf p => inf !p
  | val a, val b => val (a - b)

/-- IEEE division as performed by `series_a / series_b` in pandas: a finite
nonzero value divided by (+)0 gives a signed infinity, 0/0 gives NaN. -/
def div : PFloat → PFloat → PFloat
  | nan, _ => nan
  | _, nan => nan
  | inf p, inf _ => if p then nan else nan
  | inf p, val b => if b < 0 then inf !p else inf p
  | val _, inf _ => val 0
  | val a, val b =>
      if b = 0 then (if a = 0 then nan else inf (decide (0 < a)))
      else val (a / b)

/-- Multiplication by the scalar 100 (`series * 100`). -/
def mul100 : PFloat → PFloat
  | nan => nan
  | inf p => inf p
  | val a => val (100 * a)

end PFloat

/-- Round-half-to-even to an integer, numpy's rounding mode
(used by `Series.round`). -/
def roundHalfEven (q : ℚ) : ℤ :=
  let f := ⌊q⌋
  let frac := q - f
  if frac < 1/2 then f
  else if 1/2 < frac then f + 1
  else if 2 ∣ f then f else f + 1

/-- `Series.round(4)`: round a finite value to four decimal places
(half-to-even); NaN and infinities pass through unchanged. -/
def roundP4 : PFloat → PFloat
  | .nan => .nan
  | .inf p => .inf p
  | .val a => .val ((roundHalfEven (a * 10000) : ℚ) / 10000)

/-! ## Fact store and `DataLoader.load_stock_prices`
(src/src/loaders/data_loader.py:176-221)

The relational store for one fact table is embedded as a list of rows.
`FactStockPrice.__table_args__` (src/src/models/facts.py:44-47) declares the
composite natural key (company_id, date_id, source_id) unique; the loader
itself enforces it by a lookup before each insert.  A SQLAlchemy session has
autoflush enabled, so the per-row `select` inside one call sees rows added
earlier in the same call; the embedding therefore updates the store row by
row, and the per-batch `commit` boundaries (which only group rows into
transactions and never change the final state on the no-failure path) are
not represented. -/

/-- The composite natural key of a stock-price fact row. -/
structure FactKey where
  company_id : ℤ
  date_id : ℤ
  source_id : ℤ
deriving DecidableEq, Repr

/-- The measure columns of `fact_stock_price` (src/src/models/facts.py:21-31). -/
structure StockMeasures where
  open_price : PFloat
  high_price : PFloat
  low_price : PFloat
  close_price : PFloat
  adjusted_close : PFloat
  volume : PFloat
  price_change : PFloat
  price_change_percent : PFloat
deriving DecidableEq, Repr

/-- One row of the `fact_stock_price` table. -/
structure FactStockPrice where
  key : FactKey
  measures : StockMeasures
deriving DecidableEq, Repr

/-- The update branch of the loader: `setattr(existing, col, row[col])` for
every non-key column, applied to the row matching the composite key. -/
def updateFactRow (k : FactKey) (m : StockMeasures) (r : FactStockPrice) : FactStockPrice :=
  if r.key = k then { key := r.key, measures := m } else r

/-- One iteration of the row loop of `load_stock_prices`
(src/src/loaders/data_loader.py:195-215): look up the composite key; if
found update the measure columns in place, otherwise insert a new row and
increment the new-records counter. -/
def loadStockStep (acc : List FactStockPrice × ℕ) (row : FactStockPrice) :
    List FactStockPrice × ℕ :=
  match acc.1.find? (fun r => r.key == row.key) with
  | some _ => (acc.1.map (updateFactRow row.key row.measures), acc.2)
  | none => (acc.1 ++ [row], acc.2 + 1)

/-- `DataLoader.load_stock_prices` (src/src/loaders/data_loader.py:176-221):
returns the new store contents and the count of newly inserted rows
(`records_loaded`); updated rows never increment the count. -/
def load_stock_prices (price_df : List FactStockPrice) (store : List FactStockPrice) :
    List FactStockPrice × ℕ :=
  price_df.foldl loadStockStep (store, 0)

/-- The composite keys present in a store. -/
def storeKeys (s : List FactStockPrice) : List FactKey :=
  s.map (·.key)

/-- The uniqueness constraint `uix_company_date_source`
(src/src/models/facts.py:44-47): no two rows share a composite key. -/
def UniqueKeys (s : List FactStockPrice) : Prop :=
  (storeKeys s).Nodup

/-- Store states reachable from the empty store by fact-load operations. -/
inductive ReachableStore : List FactStockPrice → Prop where
  | empty : ReachableStore []
  | load (batch : List FactStockPrice) (s : List FactStockPrice) :
      ReachableStore s → ReachableStore (load_stock_prices batch s).1

/-! ### Basic lemmas about the loader -/

theorem updateFactRow_key (k : FactKey) (m : StockMeasures) (r : FactStockPrice) :
    (updateFactRow k m r).key = r.key := by
  unfold updateFactRow
  split <;> rfl

theorem storeKeys_update (k : FactKey) (m : StockMeasures) (s : List FactStockPrice) :
    storeKeys (s.map (updateFactRow k m)) = storeKeys s := by
  unfold storeKeys
  rw [List.map_map]
  exact List.map_congr_left (fun r _ => updateFactRow_key k m r)

theorem find?_key_isSome (s : List FactStockPrice) (k : FactKey) :
    (s.find? (fun r => r.key == k)).isSome = true ↔ k ∈ storeKeys s := by
  induction s with
  | nil => simp [storeKeys, List.find?]
  | cons r rest ih =>
      by_cases h : r.key = k
      · simp [storeKeys, List.find?, h]
      · have hb : (r.key == k) = false := by
          simp [h]
        simp only [List.find?, hb, storeKeys, List.map_cons, List.mem_cons]
        rw [show storeKeys rest = rest.map (·.key) from rfl] at ih
        constructor
        · intro hs
          exact Or.inr (ih.mp hs)
        · intro hs
          rcases hs with hs | hs
          · exact absurd hs.symm h
          · exact ih.mpr hs

theorem loadStockStep_keys_mem (acc : List FactStockPrice × ℕ) (row : FactStockPrice)
    (h : row.key ∈ storeKeys acc.1) :
    storeKeys (loadStockStep acc row).1 = storeKeys acc.1 ∧
      (loadStockStep acc row).2 = acc.2 := by
  unfold loadStockStep
  have hf : (acc.1.find? (fun r => r.key == row.key)).isSome = true :=
    (find?_key_isSome acc.1 row.key).mpr h
  cases hfind : acc.1.find? (fun r => r.key == row.key) with
  | none => rw [hfind] at hf; simp at hf
  | some r0 =>
      simp only [hfind]
      exact ⟨storeKeys_update _ _ _, trivial⟩

theorem loadStockStep_keys_new (acc : List FactStockPrice × ℕ) (row : FactStockPrice)
    (h : row.key ∉ storeKeys acc.1) :
    storeKeys (loadStockStep acc row).1 = storeKeys acc.1 ++ [row.key] ∧
      (loadStockStep acc row).2 = acc.2 + 1 := by
  unfold loadStockStep
  have hf : ¬ (acc.1.find? (fun r => r.key == row.key)).isSome = true := by
    intro hs
    exact h ((find?_key_isSome acc.1 row.key).mp hs)
  cases hfind : acc.1.find? (fun r => r.key == row.key) with
  | some r0 => rw [hfind] at hf; simp at hf
  | none =>
      simp only [hfind]
      constructor
      · simp [storeKeys]
      · trivial

instance (s : List FactStockPrice) : Decidable (UniqueKeys s) := by
  unfold UniqueKeys
  infer_instance

theorem load_foldl_keys_mem (batch : List FactStockPrice) (acc : List FactStockPrice × ℕ)
    (k : FactKey) :
    k ∈ storeKeys (batch.foldl loadStockStep acc).1 ↔
      k ∈ storeKeys acc.1 ∨ k ∈ batch.map (·.key) := by
  induction batch generalizing acc with
  | nil => simp
  | cons row rest ih =>
      rw [List.foldl_cons]
      by_cases h : row.key ∈ storeKeys acc.1
      · have hstep := loadStockStep_keys_mem acc row h
        rw [ih, hstep.1]
        simp only [List.map_cons, List.mem_cons]
        constructor
        · intro hk
          rcases hk with hk | hk
          · exact Or.inl hk
          · exact Or.inr (Or.inr hk)
        · intro hk
          rcases hk with hk | hk | hk
          · exact Or.inl hk
          · exact Or.inl (hk ▸ h)
          · exact Or.inr hk
      · have hstep := loadStockStep_keys_new acc row h
        rw [ih, hstep.1]
        simp only [List.mem_append, List.mem_singleton, List.map_cons, List.mem_cons]
        tauto

theorem load_foldl_all_present (batch : List FactStockPrice) (acc : List FactStockPrice × ℕ)
    (h : ∀ row ∈ batch, row.key ∈ storeKeys acc.1) :
    storeKeys (batch.foldl loadStockStep acc).1 = storeKeys acc.1 ∧
      (batch.foldl loadStockStep acc).2 = acc.2 := by
  induction batch generalizing acc with
  | nil => exact ⟨rfl, rfl⟩
  | cons row rest ih =>
      rw [List.foldl_cons]
      have hrow : row.key ∈ storeKeys acc.1 := h row (List.mem_cons_self row rest)
      have hstep := loadStockStep_keys_mem acc row hrow
      have hrest : ∀ r ∈ rest, r.key ∈ storeKeys (loadStockStep acc row).1 := by
        intro r hr
        rw [hstep.1]
        exact h r (List.mem_cons_of_mem row hr)
      have := ih (loadStockStep acc row) hrest
      exact ⟨this.1.trans hstep.1, this.2.trans hstep.2⟩

theorem load_foldl_unique (batch : List FactStockPrice) (acc : List FactStockPrice × ℕ)
    (h : UniqueKeys acc.1) : UniqueKeys (batch.foldl loadStockStep acc).1 := by
  induction batch generalizing acc with
  | nil => exact h
  | cons row rest ih =>
      rw [List.foldl_cons]
      by_cases hmem : row.key ∈ storeKeys acc.1
      · have hstep := loadStockStep_keys_mem acc row hmem
        exact ih _ (by unfold UniqueKeys; rw [hstep.1]; exact h)
      · have hstep := loadStockStep_keys_new acc row hmem
        refine ih _ ?_
        unfold UniqueKeys
        rw [hstep.1]
        simp only [List.nodup_append, List.nodup_cons, List.not_mem_nil, not_false_iff,
          List.nodup_nil, and_true, true_and, List.disjoint_singleton]
        exact ⟨h, hmem⟩

/-- C1: loading the same transformed batch a second time onto the store
produced by the first load inserts nothing: the returned new-records count is
0, the composite keys of the store (hence its total row count) are unchanged,
and matched rows were updated in place rather than duplicated
(src/src/loaders/data_loader.py:195-221). -/
theorem load_stock_prices_idempotent (batch store : List FactStockPrice)
    (_hu : UniqueKeys store) :
    (load_stock_prices batch (load_stock_prices batch store).1).2 = 0 ∧
      storeKeys (load_stock_prices batch (load_stock_prices batch store).1).1 =
        storeKeys (load_stock_prices batch store).1 ∧
      (load_stock_prices batch (load_stock_prices batch store).1).1.length =
        (load_stock_prices batch store).1.length := by
  have hall : ∀ row ∈ batch, row.key ∈ storeKeys (load_stock_prices batch store).1 := by
    intro row hrow
    exact (load_foldl_keys_mem batch (store, 0) row.key).mpr
      (Or.inr (List.mem_map_of_mem (·.key) hrow))
  have h2 := load_foldl_all_present batch ((load_stock_prices batch store).1, 0) hall
  simp only [load_stock_prices] at h2 ⊢
  refine ⟨h2.2, h2.1, ?_⟩
  have hkeys := congrArg List.length h2.1
  simpa [storeKeys] using hkeys

def sampleMeasures : StockMeasures :=
  ⟨.val 100, .val 105, .val 99, .val 104, .val 104, .val 50000, .val 4, .val 4⟩

def sampleRow1 : FactStockPrice := ⟨⟨1, 1, 1⟩, sampleMeasures⟩

def sampleRow2 : FactStockPrice := ⟨⟨2, 1, 1⟩, sampleMeasures⟩

theorem load_stock_prices_idempotent_witness :
    UniqueKeys [sampleRow1] ∧
      ((load_stock_prices [sampleRow1, sampleRow2]
          (load_stock_prices [sampleRow1, sampleRow2] [sampleRow1]).1).2 = 0 ∧
        storeKeys (load_stock_prices [sampleRow1, sampleRow2]
            (load_stock_prices [sampleRow1, sampleRow2] [sampleRow1]).1).1 =
          storeKeys (load_stock_prices [sampleRow1, sampleRow2] [sampleRow1]).1 ∧
        (load_stock_prices [sampleRow1, sampleRow2]
            (load_stock_prices [sampleRow1, sampleRow2] [sampleRow1]).1).1.length =
          (load_stock_prices [sampleRow1, sampleRow2] [sampleRow1]).1.length) :=
  ⟨by decide, load_stock_prices_idempotent [sampleRow1, sampleRow2] [sampleRow1] (by decide)⟩

/-- C2: every store state reachable from the empty store by fact-load
operations satisfies the composite-key uniqueness constraint: at most one
row per (company_id, date_id, source_id) triple
(src/src/models/facts.py:44-47, src/src/loaders/data_loader.py:196-215). -/
theorem reachable_store_unique_keys (s : List FactStockPrice)
    (h : ReachableStore s) : UniqueKeys s := by
  induction h with
  | empty => exact List.nodup_nil
  | load batch s _ ih => exact load_foldl_unique batch (s, 0) ih

theorem reachable_store_unique_keys_witness :
    UniqueKeys (load_stock_prices [sampleRow1, sampleRow2, sampleRow1] []).1 :=
  reachable_store_unique_keys _
    (ReachableStore.load [sampleRow1, sampleRow2, sampleRow1] [] ReachableStore.empty)

/-! ## Derived measures of `DataTransformer.transform_stock_prices`
(src/src/transformers/data_transformer.py:140-144)

`price_change = close - open` and
`price_change_percent = ((close - open) / open * 100).round(4)`, computed by
pandas column arithmetic: a NaN operand propagates, and division of a
nonzero finite value by zero yields a signed infinity (0/0 yields NaN) ---
pandas raises no division error. -/

/-- `transformed['price_change'] = transformed['close'] - transformed['open']`
(src/src/transformers/data_transformer.py:141); arguments are the open and
close cells of one row. -/
def price_change (openv closev : PFloat) : PFloat :=
  PFloat.sub closev openv

/-- `((close - open) / open * 100).round(4)`
(src/src/transformers/data_transformer.py:142-144). -/
def price_change_percent (openv closev : PFloat) : PFloat :=
  roundP4 (PFloat.mul100 (PFloat.div (PFloat.sub closev openv) openv))

/-- C3 counterexample: a row with open = 0 and close = 1 gets
price_change_percent = +∞, which is not null (NaN); the claim that a zero
open always yields a null percentage fails on the code. -/
theorem price_change_percent_zero_open_counterexample :
    price_change_percent (PFloat.val 0) (PFloat.val 1) = PFloat.inf true ∧
      price_change_percent (PFloat.val 0) (PFloat.val 1) ≠ PFloat.nan := by
  have h : price_change_percent (PFloat.val 0) (PFloat.val 1) = PFloat.inf true := by
    norm_num [price_change_percent, PFloat.sub, PFloat.div, PFloat.mul100, roundP4]
  refine ⟨h, ?_⟩
  rw [h]
  intro hx
  exact PFloat.noConfusion hx

/-- C3 (amended): with open and close both present, `price_change` is
`close − open`, and for nonzero open `price_change_percent` is
`(close − open)/open × 100` rounded (half-to-even) to four decimal places.
A missing (NaN) open propagates to a null percentage; a zero open yields a
null (NaN) percentage only when close is also zero, and a signed infinity
when close is nonzero.  The computation is total: no division error is
raised in any case. -/
theorem transform_derived_metrics (a b c : ℚ) (ha : a ≠ 0) (hc : c ≠ 0) :
    price_change (PFloat.val a) (PFloat.val b) = PFloat.val (b - a) ∧
    price_change_percent (PFloat.val a) (PFloat.val b) =
      PFloat.val ((roundHalfEven ((b - a) / a * 100 * 10000) : ℚ) / 10000) ∧
    price_change PFloat.nan (PFloat.val b) = PFloat.nan ∧
    price_change_percent PFloat.nan (PFloat.val b) = PFloat.nan ∧
    price_change_percent (PFloat.val 0) (PFloat.val 0) = PFloat.nan ∧
    price_change_percent (PFloat.val 0) (PFloat.val c) = PFloat.inf (decide (0 < c)) := by
  refine ⟨rfl, ?_, rfl, rfl, ?_, ?_⟩
  · simp only [price_change_percent, PFloat.sub, PFloat.div, PFloat.mul100, roundP4,
      if_neg ha]
    rw [mul_comm (100 : ℚ) ((b - a) / a)]
  · norm_num [price_change_percent, PFloat.sub, PFloat.div, PFloat.mul100, roundP4]
  · norm_num [price_change_percent, PFloat.sub, PFloat.div, PFloat.mul100, roundP4, hc]

theorem transform_derived_metrics_witness :
    (4:ℚ) ≠ 0 ∧ (-1:ℚ) ≠ 0 ∧
      (price_change (PFloat.val 4) (PFloat.val 5) = PFloat.val (5 - 4) ∧
        price_change_percent (PFloat.val 4) (PFloat.val 5) =
          PFloat.val ((roundHalfEven ((5 - 4) / 4 * 100 * 10000) : ℚ) / 10000) ∧
        price_change PFloat.nan (PFloat.val 5) = PFloat.nan ∧
        price_change_percent PFloat.nan (PFloat.val 5) = PFloat.nan ∧
        price_change_percent (PFloat.val 0) (PFloat.val 0) = PFloat.nan ∧
        price_change_percent (PFloat.val 0) (PFloat.val (-1)) =
          PFloat.inf (decide ((0:ℚ) < -1))) :=
  ⟨by norm_num, by norm_num, transform_derived_metrics 4 5 (-1) (by norm_num) (by norm_num)⟩

/-! ## `DataQualityValidator` (src/src/utils/validators.py)

The validator receives the raw extracted DataFrame.  The embedding fixes the
full stock schema (ticker, date, open, high, low, close, adj_close, volume),
so the `col in df.columns` guards are always taken; a null cell is
`Option.none` for the string columns and `PFloat.nan` for the numeric ones.
Messages appended to the returned `errors` list are embedded as `ValError`
values carrying the offending count; `logger.warning` calls made on the
warning-only checks are embedded as a `ValWarning` list. -/

/-- numpy `<` against a rational constant; any comparison with NaN is false. -/
def pltq : PFloat → ℚ → Bool
  | .nan, _ => false
  | .inf p, _ => !p
  | .val a, q => decide (a < q)

/-- numpy `>` against a rational constant; any comparison with NaN is false. -/
def pgtq : PFloat → ℚ → Bool
  | .nan, _ => false
  | .inf p, _ => p
  | .val a, q => decide (q < a)

/-- numpy `<` between two cells; any comparison with NaN is false. -/
def pltp : PFloat → PFloat → Bool
  | .nan, _ => false
  | _, .nan => false
  | .inf p, .inf q => !p && q
  | .inf p, .val _ => !p
  | .val _, .inf q => q
  | .val a, .val b => decide (a < b)

/-- One row of the raw stock-price DataFrame handed to the validator and the
transformer (columns as produced by the extractors). -/
structure RawStockRow where
  ticker : Option String
  date : Option String
  open_ : PFloat
  high : PFloat
  low : PFloat
  close : PFloat
  adj_close : PFloat
  volume : PFloat
deriving DecidableEq, Repr

/-- `(df[...] ...).sum()` over a boolean condition: the number of rows
satisfying it. -/
def countRows {α : Type} (df : List α) (p : α → Bool) : ℕ :=
  (df.filter p).length

/-- `if count > 0: findings.append(msg(count))` — the finding produced by one
check, empty when the count is zero. -/
def ifPos {α : Type} (n : ℕ) (f : ℕ → α) : List α :=
  if 0 < n then [f n] else []

/-- `df.duplicated(subset=[...]).sum()`: the number of rows whose key pair
equals that of an earlier row (pandas treats NaN keys as equal). -/
def duplicatedCount {α : Type} [DecidableEq α] (seen : List α) : List α → ℕ
  | [] => 0
  | p :: rest => (if p ∈ seen then 1 else 0) + duplicatedCount (p :: seen) rest

/-- The messages `validate_stock_prices` can append to its `errors` list
(src/src/utils/validators.py:26-81), each carrying the reported count. -/
inductive ValError where
  | missingColumns : ValError
  | emptyFrame : ValError
  | nullValues : String → ℕ → ValError
  | negativeValues : String → ℕ → ValError
  | negativeVolume : ℕ → ValError
  | highBelowLow : ℕ → ValError
  | duplicateKeys : ℕ → ValError
deriving DecidableEq, Repr

/-- The `logger.warning` findings of the warning-only checks
(src/src/utils/validators.py:50-53, 68-75). -/
inductive ValWarning where
  | largeValues : String → ℕ → ValWarning
  | highBelowOpenClose : ℕ → ValWarning
  | lowAboveOpenClose : ℕ → ValWarning
deriving DecidableEq, Repr

/-- The `(is_valid, errors)` pair returned by a validator, with the logged
warnings carried alongside. -/
structure ValidationResult where
  is_valid : Bool
  errors : List ValError
  warnings : List ValWarning
deriving DecidableEq, Repr

/-- The `errors` list built by `DataQualityValidator.validate_stock_prices`
on a nonempty frame (src/src/utils/validators.py:35-81), in program order:
null checks on ticker/date/close, negative-value checks on the five price
columns, negative volume, high < low, duplicate (ticker, date) pairs. -/
def stockErrors (df : List RawStockRow) : List ValError :=
  ifPos (countRows df (fun r => !r.ticker.isSome)) (ValError.nullValues "ticker") ++
  ifPos (countRows df (fun r => !r.date.isSome)) (ValError.nullValues "date") ++
  ifPos (countRows df (fun r => r.close == PFloat.nan)) (ValError.nullValues "close") ++
  ifPos (countRows df (fun r => pltq r.open_ 0)) (ValError.negativeValues "open") ++
  ifPos (countRows df (fun r => pltq r.high 0)) (ValError.negativeValues "high") ++
  ifPos (countRows df (fun r => pltq r.low 0)) (ValError.negativeValues "low") ++
  ifPos (countRows df (fun r => pltq r.close 0)) (ValError.negativeValues "close") ++
  ifPos (countRows df (fun r => pltq r.adj_close 0)) (ValError.negativeValues "adj_close") ++
  ifPos (countRows df (fun r => pltq r.volume 0)) ValError.negativeVolume ++
  ifPos (countRows df (fun r => pltp r.high r.low)) ValError.highBelowLow ++
  ifPos (duplicatedCount [] (df.map (fun r => (r.ticker, r.date)))) ValError.duplicateKeys

/-- The warnings logged by `validate_stock_prices` in program order:
values > $1,000,000 per price column, then high < open-or-close, then
low > open-or-close (src/src/utils/validators.py:50-53, 68-75). -/
def stockWarnings (df : List RawStockRow) : List ValWarning :=
  ifPos (countRows df (fun r => pgtq r.open_ 1000000)) (ValWarning.largeValues "open") ++
  ifPos (countRows df (fun r => pgtq r.high 1000000)) (ValWarning.largeValues "high") ++
  ifPos (countRows df (fun r => pgtq r.low 1000000)) (ValWarning.largeValues "low") ++
  ifPos (countRows df (fun r => pgtq r.close 1000000)) (ValWarning.largeValues "close") ++
  ifPos (countRows df (fun r => pgtq r.adj_close 1000000)) (ValWarning.largeValues "adj_close") ++
  ifPos (countRows df (fun r => pltp r.high r.open_ || pltp r.high r.close))
    ValWarning.highBelowOpenClose ++
  ifPos (countRows df (fun r => pltp r.open_ r.low || pltp r.close r.low))
    ValWarning.lowAboveOpenClose

/-- `DataQualityValidator.validate_stock_prices`
(src/src/utils/validators.py:10-92): returns `is_valid = (errors == [])`;
warning-only findings never enter `errors`. -/
def validate_stock_prices (df : List RawStockRow) : ValidationResult :=
  if df.isEmpty then
    { is_valid := false, errors := [ValError.emptyFrame], warnings := [] }
  else
    { is_valid := (stockErrors df).isEmpty
      errors := stockErrors df
      warnings := stockWarnings df }

/-- One row of the raw crypto-price DataFrame
(columns symbol, date, price, market_cap, volume). -/
structure RawCryptoRow where
  symbol : Option String
  date : Option String
  price : PFloat
  market_cap : PFloat
  volume : PFloat
deriving DecidableEq, Repr

/-- The `errors` list of `DataQualityValidator.validate_crypto_prices` on a
nonempty frame (src/src/utils/validators.py:179-221): null checks on
symbol/date/price, negative price, negative market cap, negative volume,
duplicate (symbol, date) pairs.  This validator logs no warnings. -/
def cryptoErrors (df : List RawCryptoRow) : List ValError :=
  ifPos (countRows df (fun r => !r.symbol.isSome)) (ValError.nullValues "symbol") ++
  ifPos (countRows df (fun r => !r.date.isSome)) (ValError.nullValues "date") ++
  ifPos (countRows df (fun r => r.price == PFloat.nan)) (ValError.nullValues "price") ++
  ifPos (countRows df (fun r => pltq r.price 0)) (ValError.negativeValues "price") ++
  ifPos (countRows df (fun r => pltq r.market_cap 0)) (ValError.negativeValues "market_cap") ++
  ifPos (countRows df (fun r => pltq r.volume 0)) ValError.negativeVolume ++
  ifPos (duplicatedCount [] (df.map (fun r => (r.symbol, r.date)))) ValError.duplicateKeys

/-- `DataQualityValidator.validate_crypto_prices`
(src/src/utils/validators.py:168-232). -/
def validate_crypto_prices (df : List RawCryptoRow) : ValidationResult :=
  if df.isEmpty then
    { is_valid := false, errors := [ValError.emptyFrame], warnings := [] }
  else
    { is_valid := (cryptoErrors df).isEmpty
      errors := cryptoErrors df
      warnings := [] }

/-! ### Lemmas about the validator -/

theorem mem_ifPos {α : Type} (n : ℕ) (f : ℕ → α) (e : α) :
    e ∈ ifPos n f ↔ 0 < n ∧ e = f n := by
  unfold ifPos
  split <;> simp_all

theorem countRows_eq_zero {α : Type} (df : List α) (p : α → Bool) :
    countRows df p = 0 ↔ ∀ r ∈ df, p r = false := by
  unfold countRows
  rw [List.length_eq_zero, List.filter_eq_nil_iff]
  simp

theorem countRows_pos {α : Type} (df : List α) (p : α → Bool) :
    0 < countRows df p ↔ ∃ r ∈ df, p r = true := by
  rw [Nat.pos_iff_ne_zero, Ne, countRows_eq_zero]
  push_neg
  simp

theorem duplicatedCount_eq_zero {α : Type} [DecidableEq α] (l : List α) :
    ∀ seen : List α, l.Nodup → (∀ a ∈ l, a ∉ seen) → duplicatedCount seen l = 0 := by
  induction l with
  | nil => intro seen _ _; rfl
  | cons a rest ih =>
      intro seen hd hs
      unfold duplicatedCount
      rw [if_neg (hs a (List.mem_cons_self a rest))]
      have hdr := (List.nodup_cons.mp hd)
      have := ih (a :: seen) hdr.2 (fun b hb => by
        intro hmem
        rcases List.mem_cons.mp hmem with h | h
        · exact hdr.1 (h ▸ hb)
        · exact hs b (List.mem_cons_of_mem a hb) h)
      omega

theorem isEmpty_false_of_mem {α : Type} {l : List α} {a : α} (h : a ∈ l) :
    l.isEmpty = false := by
  cases l with
  | nil => cases h
  | cons x xs => rfl

/-- Pointwise conditions under which `validate_stock_prices` appends no
errors: no nulls in the required columns, no negative values, no
high < low row, no duplicate (ticker, date) pair. -/
theorem stockErrors_eq_nil (df : List RawStockRow)
    (hnull : ∀ r ∈ df, r.ticker.isSome = true ∧ r.date.isSome = true ∧ r.close ≠ PFloat.nan)
    (hnn : ∀ r ∈ df, pltq r.open_ 0 = false ∧ pltq r.high 0 = false ∧ pltq r.low 0 = false ∧
      pltq r.close 0 = false ∧ pltq r.adj_close 0 = false ∧ pltq r.volume 0 = false)
    (hhl : ∀ r ∈ df, pltp r.high r.low = false)
    (hdup : (df.map (fun r => (r.ticker, r.date))).Nodup) :
    stockErrors df = [] := by
  have c1 : countRows df (fun r => !r.ticker.isSome) = 0 :=
    (countRows_eq_zero _ _).mpr (fun r hr => by simp [(hnull r hr).1])
  have c2 : countRows df (fun r => !r.date.isSome) = 0 :=
    (countRows_eq_zero _ _).mpr (fun r hr => by simp [(hnull r hr).2.1])
  have c3 : countRows df (fun r => r.close == PFloat.nan) = 0 :=
    (countRows_eq_zero _ _).mpr (fun r hr => by
      simp only [beq_eq_false_iff_ne, ne_eq]
      exact (hnull r hr).2.2)
  have c4 : countRows df (fun r => pltq r.open_ 0) = 0 :=
    (countRows_eq_zero _ _).mpr (fun r hr => (hnn r hr).1)
  have c5 : countRows df (fun r => pltq r.high 0) = 0 :=
    (countRows_eq_zero _ _).mpr (fun r hr => (hnn r hr).2.1)
  have c6 : countRows df (fun r => pltq r.low 0) = 0 :=
    (countRows_eq_zero _ _).mpr (fun r hr => (hnn r hr).2.2.1)
  have c7 : countRows df (fun r => pltq r.close 0) = 0 :=
    (countRows_eq_zero _ _).mpr (fun r hr => (hnn r hr).2.2.2.1)
  have c8 : countRows df (fun r => pltq r.adj_close 0) = 0 :=
    (countRows_eq_zero _ _).mpr (fun r hr => (hnn r hr).2.2.2.2.1)
  have c9 : countRows df (fun r => pltq r.volume 0) = 0 :=
    (countRows_eq_zero _ _).mpr (fun r hr => (hnn r hr).2.2.2.2.2)
  have c10 : countRows df (fun r => pltp r.high r.low) = 0 :=
    (countRows_eq_zero _ _).mpr hhl
  have c11 : duplicatedCount [] (df.map (fun r => (r.ticker, r.date))) = 0 :=
    duplicatedCount_eq_zero _ [] hdup (fun a _ => List.not_mem_nil a)
  unfold stockErrors
  rw [c1, c2, c3, c4, c5, c6, c7, c8, c9, c10, c11]
  rfl

theorem validate_stock_prices_not_empty (df : List RawStockRow) (hne : df ≠ []) :
    validate_stock_prices df =
      { is_valid := (stockErrors df).isEmpty
        errors := stockErrors df
        warnings := stockWarnings df } := by
  unfold validate_stock_prices
  rw [if_neg]
  simp [hne]

theorem mem_stockErrors_highBelowLow (df : List RawStockRow) (n : ℕ) :
    ValError.highBelowLow n ∈ stockErrors df ↔
      0 < countRows df (fun r => pltp r.high r.low) ∧
        n = countRows df (fun r => pltp r.high r.low) := by
  simp [stockErrors, List.mem_append, mem_ifPos]

theorem mem_stockErrors_negClose (df : List RawStockRow) (n : ℕ) :
    ValError.negativeValues "close" n ∈ stockErrors df ↔
      0 < countRows df (fun r => pltq r.close 0) ∧
        n = countRows df (fun r => pltq r.close 0) := by
  simp [stockErrors, List.mem_append, mem_ifPos]

theorem mem_stockErrors_negVolume (df : List RawStockRow) (n : ℕ) :
    ValError.negativeVolume n ∈ stockErrors df ↔
      0 < countRows df (fun r => pltq r.volume 0) ∧
        n = countRows df (fun r => pltq r.volume 0) := by
  simp [stockErrors, List.mem_append, mem_ifPos]

theorem mem_stockWarnings_highBelowOpenClose (df : List RawStockRow) (n : ℕ) :
    ValWarning.highBelowOpenClose n ∈ stockWarnings df ↔
      0 < countRows df (fun r => pltp r.high r.open_ || pltp r.high r.close) ∧
        n = countRows df (fun r => pltp r.high r.open_ || pltp r.high r.close) := by
  simp [stockWarnings, List.mem_append, mem_ifPos]

theorem mem_stockWarnings_lowAboveOpenClose (df : List RawStockRow) (n : ℕ) :
    ValWarning.lowAboveOpenClose n ∈ stockWarnings df ↔
      0 < countRows df (fun r => pltp r.open_ r.low || pltp r.close r.low) ∧
        n = countRows df (fun r => pltp r.open_ r.low || pltp r.close r.low) := by
  simp [stockWarnings, List.mem_append, mem_ifPos]

theorem mem_stockWarnings_largeClose (df : List RawStockRow) (n : ℕ) :
    ValWarning.largeValues "close" n ∈ stockWarnings df ↔
      0 < countRows df (fun r => pgtq r.close 1000000) ∧
        n = countRows df (fun r => pgtq r.close 1000000) := by
  simp [stockWarnings, List.mem_append, mem_ifPos]

theorem mem_cryptoErrors_negMarketCap (df : List RawCryptoRow) (n : ℕ) :
    ValError.negativeValues "market_cap" n ∈ cryptoErrors df ↔
      0 < countRows df (fun r => pltq r.market_cap 0) ∧
        n = countRows df (fun r => pltq r.market_cap 0) := by
  simp [cryptoErrors, List.mem_append, mem_ifPos]

theorem validate_stock_prices_invalid_of_mem (df : List RawStockRow) (e : ValError)
    (h : e ∈ stockErrors df) : (validate_stock_prices df).is_valid = false := by
  have hne : df ≠ [] := by
    intro h0
    subst h0
    rw [show stockErrors [] = [] from rfl] at h
    cases h
  rw [validate_stock_prices_not_empty df hne]
  exact isEmpty_false_of_mem h

theorem validate_crypto_prices_not_empty (df : List RawCryptoRow) (hne : df ≠ []) :
    validate_crypto_prices df =
      { is_valid := (cryptoErrors df).isEmpty
        errors := cryptoErrors df
        warnings := [] } := by
  unfold validate_crypto_prices
  rw [if_neg]
  simp [hne]

theorem validate_crypto_prices_invalid_of_mem (df : List RawCryptoRow) (e : ValError)
    (h : e ∈ cryptoErrors df) : (validate_crypto_prices df).is_valid = false := by
  have hne : df ≠ [] := by
    intro h0
    subst h0
    rw [show cryptoErrors [] = [] from rfl] at h
    cases h
  rw [validate_crypto_prices_not_empty df hne]
  exact isEmpty_false_of_mem h

/-- C6: with all four OHLC columns present, a row with high < low is appended
to `errors`, so `validate_stock_prices` returns is_valid = false and the
pipeline rejects the batch (src/pipeline.py:90-93); a row whose high is below
its open or close (with no critical finding in the batch) only produces a
logged warning: validation returns is_valid = true and the batch proceeds to
the loader (src/src/utils/validators.py:61-75). -/
theorem validate_ohlc_severity (df dfw : List RawStockRow)
    (hcrit : ∃ r ∈ df, pltp r.high r.low = true)
    (hnull : ∀ r ∈ dfw, r.ticker.isSome = true ∧ r.date.isSome = true ∧ r.close ≠ PFloat.nan)
    (hnn : ∀ r ∈ dfw, pltq r.open_ 0 = false ∧ pltq r.high 0 = false ∧ pltq r.low 0 = false ∧
      pltq r.close 0 = false ∧ pltq r.adj_close 0 = false ∧ pltq r.volume 0 = false)
    (hhl : ∀ r ∈ dfw, pltp r.high r.low = false)
    (hdup : (dfw.map (fun r => (r.ticker, r.date))).Nodup)
    (hwarn : ∃ r ∈ dfw, (pltp r.high r.open_ || pltp r.high r.close) = true) :
    (validate_stock_prices df).is_valid = false ∧
      (validate_stock_prices dfw).is_valid = true ∧
      ValWarning.highBelowOpenClose
          (countRows dfw (fun r => pltp r.high r.open_ || pltp r.high r.close)) ∈
        (validate_stock_prices dfw).warnings := by
  have hdfw : dfw ≠ [] := by
    rcases hwarn with ⟨r, hr, _⟩
    exact List.ne_nil_of_mem hr
  refine ⟨?_, ?_, ?_⟩
  · exact validate_stock_prices_invalid_of_mem df _
      ((mem_stockErrors_highBelowLow df _).mpr ⟨(countRows_pos df _).mpr hcrit, rfl⟩)
  · rw [validate_stock_prices_not_empty dfw hdfw,
      stockErrors_eq_nil dfw hnull hnn hhl hdup]
    rfl
  · rw [validate_stock_prices_not_empty dfw hdfw]
    exact (mem_stockWarnings_highBelowOpenClose dfw _).mpr
      ⟨(countRows_pos dfw _).mpr hwarn, rfl⟩

/-- The spec's CRITICAL example row: high = 90 < low = 95. -/
def ohlcCriticalRow : RawStockRow :=
  ⟨some "AAPL", some "2024-01-02", .val 92, .val 90, .val 95, .val 93, .val 93, .val 1000⟩

/-- The spec's WARNING example row: open = 100, high = 98, low = 95, close = 97. -/
def ohlcWarningRow : RawStockRow :=
  ⟨some "AAPL", some "2024-01-02", .val 100, .val 98, .val 95, .val 97, .val 97, .val 1000⟩

theorem validate_ohlc_severity_witness :
    (∃ r ∈ [ohlcCriticalRow], pltp r.high r.low = true) ∧
      (∀ r ∈ [ohlcWarningRow], r.ticker.isSome = true ∧ r.date.isSome = true ∧
        r.close ≠ PFloat.nan) ∧
      (∀ r ∈ [ohlcWarningRow], pltq r.open_ 0 = false ∧ pltq r.high 0 = false ∧
        pltq r.low 0 = false ∧ pltq r.close 0 = false ∧ pltq r.adj_close 0 = false ∧
        pltq r.volume 0 = false) ∧
      (∀ r ∈ [ohlcWarningRow], pltp r.high r.low = false) ∧
      ([ohlcWarningRow].map (fun r => (r.ticker, r.date))).Nodup ∧
      (∃ r ∈ [ohlcWarningRow], (pltp r.high r.open_ || pltp r.high r.close) = true) ∧
      ((validate_stock_prices [ohlcCriticalRow]).is_valid = false ∧
        (validate_stock_prices [ohlcWarningRow]).is_valid = true ∧
        ValWarning.highBelowOpenClose
            (countRows [ohlcWarningRow] (fun r => pltp r.high r.open_ || pltp r.high r.close)) ∈
          (validate_stock_prices [ohlcWarningRow]).warnings) :=
  ⟨by norm_num [ohlcCriticalRow, pltp],
    by exact fun r hr => by simp_all [ohlcWarningRow],
    by norm_num [ohlcWarningRow, pltq],
    by norm_num [ohlcWarningRow, pltp],
    by norm_num [ohlcWarningRow],
    by norm_num [ohlcWarningRow, pltp],
    validate_ohlc_severity [ohlcCriticalRow] [ohlcWarningRow]
      (by norm_num [ohlcCriticalRow, pltp])
      (fun r hr => by simp_all [ohlcWarningRow])
      (by norm_num [ohlcWarningRow, pltq])
      (by norm_num [ohlcWarningRow, pltp])
      (by norm_num [ohlcWarningRow])
      (by norm_num [ohlcWarningRow, pltp])⟩

/-- A row whose high < low violation is 10⁻⁵, smaller than the claimed
tolerance of 10⁻⁴. -/
def epsViolationRow : RawStockRow :=
  ⟨some "AAPL", some "2024-01-02", .val 95, .val (95 - 1/100000), .val 95, .val 95,
    .val 95, .val 1000⟩

/-- C7 counterexample: the OHLC checks compare exactly, with no epsilon: a
row whose high falls short of its low by only 10⁻⁵ (< the claimed 10⁻⁴
tolerance) is still flagged high < low, and the batch still fails
validation (src/src/utils/validators.py:64-66 uses a bare `<`). -/
theorem ohlc_epsilon_counterexample :
    (95 : ℚ) - (95 - 1/100000) < 1/10000 ∧
      ValError.highBelowLow 1 ∈ (validate_stock_prices [epsViolationRow]).errors ∧
      (validate_stock_prices [epsViolationRow]).is_valid = false := by
  have hcount : countRows [epsViolationRow] (fun r => pltp r.high r.low) = 1 := by
    norm_num [countRows, epsViolationRow, pltp]
  have hmem : ValError.highBelowLow 1 ∈ stockErrors [epsViolationRow] :=
    (mem_stockErrors_highBelowLow [epsViolationRow] 1).mpr (by rw [hcount]; exact ⟨one_pos, rfl⟩)
  refine ⟨by norm_num, ?_, validate_stock_prices_invalid_of_mem _ _ hmem⟩
  rw [validate_stock_prices_not_empty [epsViolationRow] (by simp)]
  exact hmem

/-- C7 (amended): all OHLC consistency comparisons of the gate are strict
and exact — there is no epsilon tolerance.  A high < low error appears in
`errors` exactly when some row strictly violates high ≥ low, and the
high-vs-open/close and low-vs-open/close warnings appear exactly when some
row strictly violates those bounds, no matter how small the violation
(src/src/utils/validators.py:61-75). -/
theorem ohlc_comparisons_exact (df : List RawStockRow) :
    ((∃ n, ValError.highBelowLow n ∈ (validate_stock_prices df).errors) ↔
      ∃ r ∈ df, pltp r.high r.low = true) ∧
    ((∃ n, ValWarning.highBelowOpenClose n ∈ (validate_stock_prices df).warnings) ↔
      ∃ r ∈ df, (pltp r.high r.open_ || pltp r.high r.close) = true) ∧
    ((∃ n, ValWarning.lowAboveOpenClose n ∈ (validate_stock_prices df).warnings) ↔
      ∃ r ∈ df, (pltp r.open_ r.low || pltp r.close r.low) = true) := by
  by_cases hdf : df = []
  · subst hdf
    refine ⟨?_, ?_, ?_⟩ <;> simp [validate_stock_prices]
  · rw [validate_stock_prices_not_empty df hdf]
    refine ⟨⟨?_, ?_⟩, ⟨?_, ?_⟩, ⟨?_, ?_⟩⟩
    · rintro ⟨n, hn⟩
      exact (countRows_pos df _).mp ((mem_stockErrors_highBelowLow df n).mp hn).1
    · intro hx
      exact ⟨_, (mem_stockErrors_highBelowLow df _).mpr
        ⟨(countRows_pos df _).mpr hx, rfl⟩⟩
    · rintro ⟨n, hn⟩
      exact (countRows_pos df _).mp ((mem_stockWarnings_highBelowOpenClose df n).mp hn).1
    · intro hx
      exact ⟨_, (mem_stockWarnings_highBelowOpenClose df _).mpr
        ⟨(countRows_pos df _).mpr hx, rfl⟩⟩
    · rintro ⟨n, hn⟩
      exact (countRows_pos df _).mp ((mem_stockWarnings_lowAboveOpenClose df n).mp hn).1
    · intro hx
      exact ⟨_, (mem_stockWarnings_lowAboveOpenClose df _).mpr
        ⟨(countRows_pos df _).mpr hx, rfl⟩⟩

/-- A batch with a single negative close price and no other findings. -/
def negPriceRow : RawStockRow :=
  ⟨some "AAPL", some "2024-01-02", .val 10, .val 12, .val (-6), .val (-5), .val 11, .val 1000⟩

/-- C8 counterexample: a batch containing a negative price does NOT merely
warn: the negative-value check appends to `errors`
(src/src/utils/validators.py:45-48), so validation fails and the batch is
rejected, contrary to the claim that range findings are warnings that still
load. -/
theorem range_check_counterexample :
    (∃ r ∈ [negPriceRow], pltq r.close 0 = true) ∧
      ValError.negativeValues "close" 1 ∈ (validate_stock_prices [negPriceRow]).errors ∧
      (validate_stock_prices [negPriceRow]).is_valid = false := by
  have hcount : countRows [negPriceRow] (fun r => pltq r.close 0) = 1 := by
    norm_num [countRows, negPriceRow, pltq]
  have hmem : ValError.negativeValues "close" 1 ∈ stockErrors [negPriceRow] :=
    (mem_stockErrors_negClose [negPriceRow] 1).mpr (by rw [hcount]; exact ⟨one_pos, rfl⟩)
  refine ⟨⟨negPriceRow, by simp, by norm_num [negPriceRow, pltq]⟩, ?_,
    validate_stock_prices_invalid_of_mem _ _ hmem⟩
  rw [validate_stock_prices_not_empty [negPriceRow] (by simp)]
  exact hmem

/-- C8 (amended): only the implausibly-large-value check (> $1,000,000 per
share) is a warning that lets the batch load; negative prices, negative
volumes and negative market caps are appended to `errors` and make
validation fail, alongside missing required data and in-batch duplicate
keys (src/src/utils/validators.py:42-59, 199-215).  A batch whose only
anomaly is a too-large price passes validation with a logged warning. -/
theorem range_findings_severity (dfp dfv : List RawStockRow) (cdf : List RawCryptoRow)
    (dfBig : List RawStockRow)
    (hnegP : ∃ r ∈ dfp, pltq r.close 0 = true)
    (hnegV : ∃ r ∈ dfv, pltq r.volume 0 = true)
    (hnegMc : ∃ r ∈ cdf, pltq r.market_cap 0 = true)
    (hnull : ∀ r ∈ dfBig, r.ticker.isSome = true ∧ r.date.isSome = true ∧
      r.close ≠ PFloat.nan)
    (hnn : ∀ r ∈ dfBig, pltq r.open_ 0 = false ∧ pltq r.high 0 = false ∧
      pltq r.low 0 = false ∧ pltq r.close 0 = false ∧ pltq r.adj_close 0 = false ∧
      pltq r.volume 0 = false)
    (hhl : ∀ r ∈ dfBig, pltp r.high r.low = false)
    (hdup : (dfBig.map (fun r => (r.ticker, r.date))).Nodup)
    (hbig : ∃ r ∈ dfBig, pgtq r.close 1000000 = true) :
    (validate_stock_prices dfp).is_valid = false ∧
      (validate_stock_prices dfv).is_valid = false ∧
      (validate_crypto_prices cdf).is_valid = false ∧
      (validate_stock_prices dfBig).is_valid = true ∧
      ValWarning.largeValues "close" (countRows dfBig (fun r => pgtq r.close 1000000)) ∈
        (validate_stock_prices dfBig).warnings := by
  have hdfBig : dfBig ≠ [] := by
    rcases hbig with ⟨r, hr, _⟩
    exact List.ne_nil_of_mem hr
  refine ⟨?_, ?_, ?_, ?_, ?_⟩
  · exact validate_stock_prices_invalid_of_mem dfp _
      ((mem_stockErrors_negClose dfp _).mpr ⟨(countRows_pos dfp _).mpr hnegP, rfl⟩)
  · exact validate_stock_prices_invalid_of_mem dfv _
      ((mem_stockErrors_negVolume dfv _).mpr ⟨(countRows_pos dfv _).mpr hnegV, rfl⟩)
  · exact validate_crypto_prices_invalid_of_mem cdf _
      ((mem_cryptoErrors_negMarketCap cdf _).mpr ⟨(countRows_pos cdf _).mpr hnegMc, rfl⟩)
  · rw [validate_stock_prices_not_empty dfBig hdfBig,
      stockErrors_eq_nil dfBig hnull hnn hhl hdup]
    rfl
  · rw [validate_stock_prices_not_empty dfBig hdfBig]
    exact (mem_stockWarnings_largeClose dfBig _).mpr
      ⟨(countRows_pos dfBig _).mpr hbig, rfl⟩

/-- A batch with a single negative volume. -/
def negVolumeRow : RawStockRow :=
  ⟨some "MSFT", some "2024-01-02", .val 10, .val 12, .val 9, .val 11, .val 11, .val (-7)⟩

/-- A crypto batch with a negative market cap. -/
def negMarketCapRow : RawCryptoRow :=
  ⟨some "BTC", some "2024-01-02", .val 50000, .val (-1), .val 900⟩

/-- A batch whose only anomaly is a price above $1,000,000. -/
def bigPriceRow : RawStockRow :=
  ⟨some "BRK-A", some "2024-01-02", .val 1200000, .val 2000001, .val 1100000, .val 2000000,
    .val 2000000, .val 10⟩

theorem range_findings_severity_witness :
    (∃ r ∈ [negPriceRow], pltq r.close 0 = true) ∧
      (∃ r ∈ [negVolumeRow], pltq r.volume 0 = true) ∧
      (∃ r ∈ [negMarketCapRow], pltq r.market_cap 0 = true) ∧
      (∀ r ∈ [bigPriceRow], r.ticker.isSome = true ∧ r.date.isSome = true ∧
        r.close ≠ PFloat.nan) ∧
      (∀ r ∈ [bigPriceRow], pltq r.open_ 0 = false ∧ pltq r.high 0 = false ∧
        pltq r.low 0 = false ∧ pltq r.close 0 = false ∧ pltq r.adj_close 0 = false ∧
        pltq r.volume 0 = false) ∧
      (∀ r ∈ [bigPriceRow], pltp r.high r.low = false) ∧
      ([bigPriceRow].map (fun r => (r.ticker, r.date))).Nodup ∧
      (∃ r ∈ [bigPriceRow], pgtq r.close 1000000 = true) ∧
      ((validate_stock_prices [negPriceRow]).is_valid = false ∧
        (validate_stock_prices [negVolumeRow]).is_valid = false ∧
        (validate_crypto_prices [negMarketCapRow]).is_valid = false ∧
        (validate_stock_prices [bigPriceRow]).is_valid = true ∧
        ValWarning.largeValues "close"
            (countRows [bigPriceRow] (fun r => pgtq r.close 1000000)) ∈
          (validate_stock_prices [bigPriceRow]).warnings) :=
  ⟨by norm_num [negPriceRow, pltq],
    by norm_num [negVolumeRow, pltq],
    by norm_num [negMarketCapRow, pltq],
    by exact fun r hr => by simp_all [bigPriceRow],
    by norm_num [bigPriceRow, pltq],
    by norm_num [bigPriceRow, pltp],
    by norm_num [bigPriceRow],
    by norm_num [bigPriceRow, pgtq],
    range_findings_severity [negPriceRow] [negVolumeRow] [negMarketCapRow] [bigPriceRow]
      (by norm_num [negPriceRow, pltq])
      (by norm_num [negVolumeRow, pltq])
      (by norm_num [negMarketCapRow, pltq])
      (fun r hr => by simp_all [bigPriceRow])
      (by norm_num [bigPriceRow, pltq])
      (by norm_num [bigPriceRow, pltp])
      (by norm_num [bigPriceRow])
      (by norm_num [bigPriceRow, pgtq])⟩

/-! ## `DataLoader.load_companies` (src/src/loaders/data_loader.py:56-100)

The company dimension store is a list of rows plus the autoincrement counter
for `company_id`.  An input row's descriptive attributes are `Option`-valued:
`none` embeds a column absent from the DataFrame, in which case
`row.get(col, default)` falls back to its default (the existing value on
update, the ticker / None on insert). -/

/-- One row of `dim_company` (src/src/models/dimensions.py:7-21). -/
structure DimCompany where
  company_id : ℕ
  ticker : String
  company_name : String
  sector : Option String
  industry : Option String
  country : Option String
deriving DecidableEq, Repr

/-- The `dim_company` table plus its autoincrement state. -/
structure CompanyStore where
  rows : List DimCompany
  nextId : ℕ
deriving DecidableEq, Repr

/-- One row of the company DataFrame passed to `load_companies`. -/
structure CompanyInput where
  ticker : String
  company_name : Option String
  sector : Option String
  industry : Option String
  country : Option String
deriving DecidableEq, Repr

/-- `row.get(col, old)` for an Option-valued stored column: the supplied
value when the column is present, the old value otherwise. -/
def rowGet (new old : Option String) : Option String :=
  match new with
  | some v => some v
  | none => old

/-- The update branch of `load_companies`
(src/src/loaders/data_loader.py:76-82): refresh every mutable descriptive
attribute (last-write-wins), keep key and surrogate id. -/
def updCompanyAttrs (i : CompanyInput) (c : DimCompany) : DimCompany :=
  { c with
    company_name := i.company_name.getD c.company_name
    sector := rowGet i.sector c.sector
    industry := rowGet i.industry c.industry
    country := rowGet i.country c.country }

/-- Apply the in-place mutation to the row matching the looked-up ticker. -/
def updCompanyRow (i : CompanyInput) (r : DimCompany) : DimCompany :=
  if r.ticker == i.ticker then updCompanyAttrs i r else r

/-- The insert branch of `load_companies`
(src/src/loaders/data_loader.py:84-93): a fresh surrogate id, the ticker as
fallback company name, and the supplied descriptive attributes. -/
def newCompanyRow (s : CompanyStore) (i : CompanyInput) : DimCompany :=
  { company_id := s.nextId
    ticker := i.ticker
    company_name := i.company_name.getD i.ticker
    sector := i.sector
    industry := i.industry
    country := i.country }

/-- One iteration of the `load_companies` loop
(src/src/loaders/data_loader.py:70-97): select by ticker; update descriptive
attributes if found, else insert a new row with a fresh surrogate id; either
way record ticker → company_id in the returned mapping. -/
def resolveCompanyStep (acc : CompanyStore × List (String × ℕ)) (i : CompanyInput) :
    CompanyStore × List (String × ℕ) :=
  let s := acc.1
  match s.rows.find? (fun c => c.ticker == i.ticker) with
  | some c =>
      ({ s with rows := s.rows.map (updCompanyRow i) },
        acc.2 ++ [(i.ticker, c.company_id)])
  | none =>
      ({ rows := s.rows ++ [newCompanyRow s i], nextId := s.nextId + 1 },
        acc.2 ++ [(i.ticker, s.nextId)])

/-- `DataLoader.load_companies` (src/src/loaders/data_loader.py:56-100):
returns the new store and the ticker → company_id mapping. -/
def load_companies (company_df : List CompanyInput) (s : CompanyStore) :
    CompanyStore × List (String × ℕ) :=
  company_df.foldl resolveCompanyStep (s, [])

/-- Lookup in the returned mapping dict (last write wins). -/
def dictLookup (m : List (String × ℕ)) (k : String) : Option ℕ :=
  (m.reverse.find? (fun p => p.1 == k)).map (·.2)

/-- The natural keys present in the company store. -/
def companyTickers (s : CompanyStore) : List String :=
  s.rows.map (·.ticker)

/-- The unique constraint on `dim_company.ticker`
(src/src/models/dimensions.py:12). -/
def UniqueTickers (s : CompanyStore) : Prop :=
  (companyTickers s).Nodup

instance (s : CompanyStore) : Decidable (UniqueTickers s) := by
  unfold UniqueTickers
  infer_instance

theorem updCompanyRow_ticker (i : CompanyInput) (r : DimCompany) :
    (updCompanyRow i r).ticker = r.ticker := by
  unfold updCompanyRow updCompanyAttrs
  split <;> rfl

theorem updCompanyRow_id (i : CompanyInput) (r : DimCompany) :
    (updCompanyRow i r).company_id = r.company_id := by
  unfold updCompanyRow updCompanyAttrs
  split <;> rfl

theorem find_company_unique (rows : List DimCompany) (t : String) (c : DimCompany)
    (hnd : (rows.map (·.ticker)).Nodup) (hmem : c ∈ rows) (ht : c.ticker = t) :
    rows.find? (fun r => r.ticker == t) = some c := by
  induction rows with
  | nil => cases hmem
  | cons r rest ih =>
      rw [List.map_cons, List.nodup_cons] at hnd
      by_cases hr : r.ticker = t
      · have hceq : c = r := by
          rcases List.mem_cons.mp hmem with h | h
          · exact h
          · exfalso
            apply hnd.1
            have hmm : c.ticker ∈ rest.map (·.ticker) := List.mem_map_of_mem (·.ticker) h
            rw [ht] at hmm
            rw [hr]
            exact hmm
        rw [List.find?_cons_of_pos]
        · rw [hceq]
        · simp [hr]
      · have hcr : c ∈ rest := by
          rcases List.mem_cons.mp hmem with h | h
          · exact absurd (h ▸ ht) hr
          · exact h
        rw [List.find?_cons_of_neg]
        · exact ih hnd.2 hcr
        · simp [hr]

theorem companyTickers_map_upd (i : CompanyInput) (rows : List DimCompany) :
    (rows.map (updCompanyRow i)).map (·.ticker) = rows.map (·.ticker) := by
  rw [List.map_map]
  exact List.map_congr_left (fun r _ => updCompanyRow_ticker i r)

/-- A single resolution always records exactly one mapping entry, pointing
at a row present in the resulting store with that ticker, and preserves
ticker uniqueness. -/
theorem resolve_first (s : CompanyStore) (i1 : CompanyInput) (hu : UniqueTickers s) :
    ∃ c1 ∈ (load_companies [i1] s).1.rows,
      c1.ticker = i1.ticker ∧
      (load_companies [i1] s).2 = [(i1.ticker, c1.company_id)] ∧
      UniqueTickers (load_companies [i1] s).1 := by
  cases hfind : s.rows.find? (fun c => c.ticker == i1.ticker) with
  | some c =>
      have htick : c.ticker = i1.ticker := by
        have := List.find?_some hfind
        simpa using this
      have hmemc : c ∈ s.rows := List.mem_of_find?_eq_some hfind
      refine ⟨updCompanyRow i1 c, ?_, ?_, ?_, ?_⟩
      · simp only [load_companies, List.foldl_cons, List.foldl_nil, resolveCompanyStep, hfind]
        exact List.mem_map_of_mem _ hmemc
      · rw [updCompanyRow_ticker]
        exact htick
      · simp only [load_companies, List.foldl_cons, List.foldl_nil, resolveCompanyStep, hfind]
        rw [updCompanyRow_id]
        simp
      · simp only [load_companies, List.foldl_cons, List.foldl_nil, resolveCompanyStep, hfind]
        unfold UniqueTickers companyTickers
        rw [companyTickers_map_upd]
        exact hu
  | none =>
      have hnot : i1.ticker ∉ s.rows.map (·.ticker) := by
        intro hmem
        rcases List.mem_map.mp hmem with ⟨r, hr, hrt⟩
        have := List.find?_eq_none.mp hfind r hr
        simp [hrt] at this
      refine ⟨newCompanyRow s i1, ?_, rfl, ?_, ?_⟩
      · simp only [load_companies, List.foldl_cons, List.foldl_nil, resolveCompanyStep, hfind]
        exact List.mem_append_right _ (List.mem_singleton_self _)
      · simp only [load_companies, List.foldl_cons, List.foldl_nil, resolveCompanyStep, hfind]
        rfl
      · simp only [load_companies, List.foldl_cons, List.foldl_nil, resolveCompanyStep, hfind]
        unfold UniqueTickers companyTickers
        simp only [List.map_append, List.map_cons, List.map_nil, List.nodup_append,
          List.nodup_cons, List.not_mem_nil, not_false_iff, List.nodup_nil, and_true,
          true_and, List.disjoint_singleton]
        exact ⟨hu, hnot⟩

/-- A resolution of a ticker already present in a unique-ticker store finds
the existing row: it returns its surrogate id, inserts nothing, and leaves
the row's descriptive attributes equal to the supplied ones. -/
theorem resolve_second (s1 : CompanyStore) (i2 : CompanyInput) (c1 : DimCompany)
    (n sec ind ctry : String)
    (hu1 : UniqueTickers s1) (hmem : c1 ∈ s1.rows) (htick : c1.ticker = i2.ticker)
    (hn : i2.company_name = some n) (hsec : i2.sector = some sec)
    (hind : i2.industry = some ind) (hctr : i2.country = some ctry) :
    (load_companies [i2] s1).2 = [(i2.ticker, c1.company_id)] ∧
    (load_companies [i2] s1).1.rows.length = s1.rows.length ∧
    ∃ c ∈ (load_companies [i2] s1).1.rows,
      c.ticker = i2.ticker ∧ c.company_id = c1.company_id ∧
      c.company_name = n ∧ c.sector = some sec ∧ c.industry = some ind ∧
      c.country = some ctry := by
  have hfind : s1.rows.find? (fun r => r.ticker == i2.ticker) = some c1 :=
    find_company_unique s1.rows i2.ticker c1 hu1 hmem htick
  simp only [load_companies, List.foldl_cons, List.foldl_nil, resolveCompanyStep, hfind]
  refine ⟨rfl, by simp, ?_⟩
  refine ⟨updCompanyRow i2 c1, List.mem_map_of_mem _ hmem, ?_, updCompanyRow_id i2 c1,
    ?_, ?_, ?_, ?_⟩
  · rw [updCompanyRow_ticker]
    exact htick
  · unfold updCompanyRow
    rw [if_pos (by simp [htick])]
    unfold updCompanyAttrs
    simp [hn]
  · unfold updCompanyRow
    rw [if_pos (by simp [htick])]
    unfold updCompanyAttrs
    simp [rowGet, hsec]
  · unfold updCompanyRow
    rw [if_pos (by simp [htick])]
    unfold updCompanyAttrs
    simp [rowGet, hind]
  · unfold updCompanyRow
    rw [if_pos (by simp [htick])]
    unfold updCompanyAttrs
    simp [rowGet, hctr]

theorem dictLookup_singleton (k : String) (v : ℕ) : dictLookup [(k, v)] k = some v := by
  simp [dictLookup]

/-- C4: dimension resolution is stable: resolving the same ticker a second
time — with different descriptive attributes — returns the same surrogate id
as the first resolution, inserts no second row for that ticker, and leaves
the stored descriptive attributes equal to those supplied by the most recent
call (last-write-wins) (src/src/loaders/data_loader.py:70-97). -/
theorem load_companies_stable (s : CompanyStore) (i1 i2 : CompanyInput)
    (n sec ind ctry : String)
    (hu : UniqueTickers s) (ht : i1.ticker = i2.ticker)
    (hn : i2.company_name = some n) (hsec : i2.sector = some sec)
    (hind : i2.industry = some ind) (hctr : i2.country = some ctry) :
    dictLookup (load_companies [i2] (load_companies [i1] s).1).2 i2.ticker =
      dictLookup (load_companies [i1] s).2 i1.ticker ∧
    (dictLookup (load_companies [i1] s).2 i1.ticker).isSome = true ∧
    (load_companies [i2] (load_companies [i1] s).1).1.rows.length =
      (load_companies [i1] s).1.rows.length ∧
    ∃ c ∈ (load_companies [i2] (load_companies [i1] s).1).1.rows,
      c.ticker = i2.ticker ∧
      dictLookup (load_companies [i2] (load_companies [i1] s).1).2 i2.ticker =
        some c.company_id ∧
      c.company_name = n ∧ c.sector = some sec ∧ c.industry = some ind ∧
      c.country = some ctry := by
  obtain ⟨c1, hmem1, htick1, hmap1, hu1⟩ := resolve_first s i1 hu
  obtain ⟨hmap2, hlen2, c2, hmem2, htick2, hid2, hname2, hsec2, hind2, hctr2⟩ :=
    resolve_second (load_companies [i1] s).1 i2 c1 n sec ind ctry hu1 hmem1
      (htick1.symm ▸ ht) hn hsec hind hctr
  refine ⟨?_, ?_, hlen2, c2, hmem2, htick2, ?_, hname2, hsec2, hind2, hctr2⟩
  · rw [hmap2, hmap1, dictLookup_singleton, ht, dictLookup_singleton]
  · rw [hmap1, dictLookup_singleton]
    rfl
  · rw [hmap2, dictLookup_singleton, hid2]

/-- First resolution of "AAPL": one set of descriptive attributes. -/
def companyInputFirst : CompanyInput :=
  ⟨"AAPL", some "Apple", some "Tech", some "Hardware", some "US"⟩

/-- Second resolution of "AAPL": different descriptive attributes. -/
def companyInputSecond : CompanyInput :=
  ⟨"AAPL", some "Apple Inc", some "Technology", some "Consumer Electronics", some "USA"⟩

/-- An empty company store with autoincrement at 1. -/
def emptyCompanyStore : CompanyStore := ⟨[], 1⟩

theorem load_companies_stable_witness :
    UniqueTickers emptyCompanyStore ∧
      companyInputFirst.ticker = companyInputSecond.ticker ∧
      companyInputSecond.company_name = some "Apple Inc" ∧
      companyInputSecond.sector = some "Technology" ∧
      companyInputSecond.industry = some "Consumer Electronics" ∧
      companyInputSecond.country = some "USA" ∧
      (dictLookup
          (load_companies [companyInputSecond]
            (load_companies [companyInputFirst] emptyCompanyStore).1).2
          companyInputSecond.ticker =
        dictLookup (load_companies [companyInputFirst] emptyCompanyStore).2
          companyInputFirst.ticker ∧
      (dictLookup (load_companies [companyInputFirst] emptyCompanyStore).2
          companyInputFirst.ticker).isSome = true ∧
      (load_companies [companyInputSecond]
          (load_companies [companyInputFirst] emptyCompanyStore).1).1.rows.length =
        (load_companies [companyInputFirst] emptyCompanyStore).1.rows.length ∧
      ∃ c ∈ (load_companies [companyInputSecond]
          (load_companies [companyInputFirst] emptyCompanyStore).1).1.rows,
        c.ticker = companyInputSecond.ticker ∧
        dictLookup
            (load_companies [companyInputSecond]
              (load_companies [companyInputFirst] emptyCompanyStore).1).2
            companyInputSecond.ticker =
          some c.company_id ∧
        c.company_name = "Apple Inc" ∧ c.sector = some "Technology" ∧
        c.industry = some "Consumer Electronics" ∧ c.country = some "USA") :=
  ⟨by decide, rfl, rfl, rfl, rfl, rfl,
    load_companies_stable emptyCompanyStore companyInputFirst companyInputSecond
      "Apple Inc" "Technology" "Consumer Electronics" "USA"
      (by decide) rfl rfl rfl rfl rfl⟩

/-! ## `DataTransformer.transform_stock_prices`
(src/src/transformers/data_transformer.py:109-175)

The transformer maps the ticker and date natural keys through the surrogate
mappings (`Series.map` / `dict.get`, yielding null for an absent key),
attaches the fixed source id, computes the derived measures, re-projects
onto the fact schema, drops rows with a missing company_id, date_id or
close_price (`dropna`), and coerces the surviving ids to integers.  It logs
"Transformed {len} stock price records" — the RETAINED row count, embedded
here as the second component of the result. -/

/-- `Series.map(mapping)` / `mapping.get(key)`: `none` for an absent or null
key. -/
def keyLookup (m : List (String × ℤ)) (k : Option String) : Option ℤ :=
  k.bind (fun key => (m.find? (fun p => p.1 == key)).map (·.2))

/-- A stock row after key mapping and measure derivation, before `dropna`. -/
structure TransStockRow where
  company_id : Option ℤ
  date_id : Option ℤ
  open_price : PFloat
  high_price : PFloat
  low_price : PFloat
  close_price : PFloat
  adjusted_close : PFloat
  volume : PFloat
  price_change : PFloat
  price_change_percent : PFloat
deriving DecidableEq, Repr

/-- Key mapping, measure derivation and column re-projection for one raw row
(src/src/transformers/data_transformer.py:130-164). -/
def transformRow (cm dm : List (String × ℤ)) (r : RawStockRow) : TransStockRow :=
  { company_id := keyLookup cm r.ticker
    date_id := keyLookup dm r.date
    open_price := r.open_
    high_price := r.high
    low_price := r.low
    close_price := r.close
    adjusted_close := r.adj_close
    volume := r.volume
    price_change := price_change r.open_ r.close
    price_change_percent := price_change_percent r.open_ r.close }

/-- `dropna(subset=['company_id', 'date_id', 'close_price'])`
(src/src/transformers/data_transformer.py:167). -/
def requiredPresent (t : TransStockRow) : Bool :=
  t.company_id.isSome && t.date_id.isSome && !(t.close_price == PFloat.nan)

/-- `astype(int)` on the surviving surrogate ids and assembly of the final
fact row (src/src/transformers/data_transformer.py:169-172). -/
def finalizeFactRow (sid : ℤ) (t : TransStockRow) : Option FactStockPrice :=
  match t.company_id, t.date_id with
  | some cid, some did =>
      some ⟨⟨cid, did, sid⟩,
        ⟨t.open_price, t.high_price, t.low_price, t.close_price, t.adjusted_close,
          t.volume, t.price_change, t.price_change_percent⟩⟩
  | _, _ => none

/-- `DataTransformer.transform_stock_prices`
(src/src/transformers/data_transformer.py:109-175): the surviving fact rows
paired with the count the function logs (the retained-row count). -/
def transform_stock_prices (price_df : List RawStockRow) (cm dm : List (String × ℤ))
    (sid : ℤ) : List FactStockPrice × ℕ :=
  let final := ((price_df.map (transformRow cm dm)).filter requiredPresent).filterMap
    (finalizeFactRow sid)
  (final, final.length)

/-- The `dropna` guard expressed on the raw row. -/
def rawMappable (cm dm : List (String × ℤ)) (r : RawStockRow) : Bool :=
  (keyLookup cm r.ticker).isSome && (keyLookup dm r.date).isSome &&
    !(r.close == PFloat.nan)

theorem filterMap_length_of_isSome {α β : Type} (f : α → Option β) (l : List α)
    (h : ∀ a ∈ l, (f a).isSome = true) : (l.filterMap f).length = l.length := by
  induction l with
  | nil => rfl
  | cons a rest ih =>
      have ha := h a (List.mem_cons_self a rest)
      cases hfa : f a with
      | none => rw [hfa] at ha; simp at ha
      | some b =>
          rw [List.filterMap_cons_some hfa]
          simp only [List.length_cons]
          rw [ih (fun x hx => h x (List.mem_cons_of_mem a hx))]

theorem countRows_add_not {α : Type} (df : List α) (p : α → Bool) :
    countRows df p + countRows df (fun a => !p a) = df.length := by
  induction df with
  | nil => rfl
  | cons a rest ih =>
      simp only [countRows] at ih ⊢
      by_cases h : p a <;> simp [List.filter_cons, h] <;> omega

theorem load_fresh_count (batch : List FactStockPrice) (acc : List FactStockPrice × ℕ)
    (hn : (batch.map (·.key)).Nodup) (hdis : ∀ row ∈ batch, row.key ∉ storeKeys acc.1) :
    (batch.foldl loadStockStep acc).2 = acc.2 + batch.length := by
  induction batch generalizing acc with
  | nil => simp
  | cons row rest ih =>
      rw [List.map_cons, List.nodup_cons] at hn
      rw [List.foldl_cons]
      have hstep := loadStockStep_keys_new acc row (hdis row (List.mem_cons_self row rest))
      have hrest : ∀ r ∈ rest, r.key ∉ storeKeys (loadStockStep acc row).1 := by
        intro r hr
        rw [hstep.1]
        simp only [List.mem_append, List.mem_singleton]
        rintro (h | h)
        · exact hdis r (List.mem_cons_of_mem row hr) h
        · exact hn.1 (h ▸ List.mem_map_of_mem (·.key) hr)
      rw [ih _ hn.2 hrest, hstep.2]
      simp only [List.length_cons]
      omega

/-- C5 (amended): the transform/load sequence keeps exactly the mappable
rows: a row missing its company or date surrogate key or its close price is
dropped without raising and never reaches the store; every surviving row
carries fully resolved surrogate keys, and loading the survivors into an
empty store inserts them all.  The count reported by the transformer,
however, is the number of rows retained (its log line), not the number
dropped — the rejection count is only derivable as the difference from the
input length. -/
theorem transform_partial_batch (df : List RawStockRow) (cm dm : List (String × ℤ))
    (sid : ℤ)
    (hkeys : (((transform_stock_prices df cm dm sid).1).map (·.key)).Nodup) :
    (transform_stock_prices df cm dm sid).2 =
      (transform_stock_prices df cm dm sid).1.length ∧
    (transform_stock_prices df cm dm sid).1.length +
      countRows df (fun r => !rawMappable cm dm r) = df.length ∧
    (∀ fr ∈ (transform_stock_prices df cm dm sid).1,
      ∃ r ∈ df, keyLookup cm r.ticker = some fr.key.company_id ∧
        keyLookup dm r.date = some fr.key.date_id ∧ fr.key.source_id = sid) ∧
    (load_stock_prices (transform_stock_prices df cm dm sid).1 []).2 =
      (transform_stock_prices df cm dm sid).1.length := by
  have hsome : ∀ t ∈ (df.map (transformRow cm dm)).filter requiredPresent,
      (finalizeFactRow sid t).isSome = true := by
    intro t ht
    have hp := (List.mem_filter.mp ht).2
    unfold requiredPresent at hp
    cases hc : t.company_id with
    | none => rw [hc] at hp; simp at hp
    | some cid =>
        cases hd : t.date_id with
        | none => rw [hc, hd] at hp; simp at hp
        | some did => simp [finalizeFactRow, hc, hd]
  have hlenfm :
      (transform_stock_prices df cm dm sid).1.length =
        ((df.map (transformRow cm dm)).filter requiredPresent).length :=
    filterMap_length_of_isSome _ _ hsome
  have hlenfilter :
      ((df.map (transformRow cm dm)).filter requiredPresent).length =
        countRows df (fun r => rawMappable cm dm r) := by
    rw [List.filter_map]
    rw [List.length_map]
    rfl
  refine ⟨rfl, ?_, ?_, ?_⟩
  · rw [hlenfm, hlenfilter]
    exact countRows_add_not df (rawMappable cm dm)
  · intro fr hfr
    obtain ⟨t, ht, hft⟩ := List.mem_filterMap.mp hfr
    obtain ⟨r, hr, hrt⟩ := List.mem_map.mp (List.mem_filter.mp ht).1
    refine ⟨r, hr, ?_⟩
    unfold finalizeFactRow at hft
    cases hc : t.company_id with
    | none => rw [hc] at hft; simp at hft
    | some cid =>
        cases hd : t.date_id with
        | none => rw [hc, hd] at hft; simp at hft
        | some did =>
            rw [hc, hd] at hft
            simp only [Option.some.injEq] at hft
            subst hft
            subst hrt
            exact ⟨hc, hd, rfl⟩
  · have := load_fresh_count (transform_stock_prices df cm dm sid).1
      ([], 0) hkeys (fun row _ hmem => by cases hmem)
    simpa [load_stock_prices] using this

/-- A raw stock row for a given ticker, fully populated. -/
def mkRawRow (t : String) : RawStockRow :=
  ⟨some t, some "2024-01-02", .val 10, .val 12, .val 9, .val 11, .val 11, .val 100⟩

/-- A 10-row batch whose last ticker is absent from the company mapping. -/
def partialBatch : List RawStockRow :=
  [mkRawRow "T0", mkRawRow "T1", mkRawRow "T2", mkRawRow "T3", mkRawRow "T4",
    mkRawRow "T5", mkRawRow "T6", mkRawRow "T7", mkRawRow "T8", mkRawRow "T9"]

/-- The company mapping covering only T0..T8. -/
def partialCompanyMap : List (String × ℤ) :=
  [("T0", 1), ("T1", 2), ("T2", 3), ("T3", 4), ("T4", 5), ("T5", 6), ("T6", 7),
    ("T7", 8), ("T8", 9)]

/-- The date mapping covering the single date of the batch. -/
def partialDateMap : List (String × ℤ) := [("2024-01-02", 1)]

/-- C5 counterexample: a batch of 10 rows with 1 unmappable natural key
retains (and would load) exactly 9 rows and drops exactly 1 — but the count
the transformer logs is 9, the retained rows
(src/src/transformers/data_transformer.py:174), never the 1 rejection the
claim requires to be reported. -/
theorem transform_report_counterexample :
    partialBatch.length = 10 ∧
      (transform_stock_prices partialBatch partialCompanyMap partialDateMap 1).1.length = 9 ∧
      countRows partialBatch
        (fun r => !rawMappable partialCompanyMap partialDateMap r) = 1 ∧
      (transform_stock_prices partialBatch partialCompanyMap partialDateMap 1).2 = 9 ∧
      (transform_stock_prices partialBatch partialCompanyMap partialDateMap 1).2 ≠ 1 := by
  refine ⟨rfl, by decide, by decide, by decide, by decide⟩

theorem transform_partial_batch_witness :
    (((transform_stock_prices partialBatch partialCompanyMap partialDateMap 1).1).map
        (·.key)).Nodup ∧
      ((transform_stock_prices partialBatch partialCompanyMap partialDateMap 1).2 =
        (transform_stock_prices partialBatch partialCompanyMap partialDateMap 1).1.length ∧
      (transform_stock_prices partialBatch partialCompanyMap partialDateMap 1).1.length +
        countRows partialBatch
          (fun r => !rawMappable partialCompanyMap partialDateMap r) =
        partialBatch.length ∧
      (∀ fr ∈ (transform_stock_prices partialBatch partialCompanyMap partialDateMap 1).1,
        ∃ r ∈ partialBatch,
          keyLookup partialCompanyMap r.ticker = some fr.key.company_id ∧
          keyLookup partialDateMap r.date = some fr.key.date_id ∧
          fr.key.source_id = 1) ∧
      (load_stock_prices
          (transform_stock_prices partialBatch partialCompanyMap partialDateMap 1).1 []).2 =
        (transform_stock_prices partialBatch partialCompanyMap partialDateMap 1).1.length) :=
  ⟨by decide,
    transform_partial_batch partialBatch partialCompanyMap partialDateMap 1 (by decide)⟩

/-! ## `DataTransformer.transform_date_dimension`
(src/src/transformers/data_transformer.py:12-45)

`pd.to_datetime(dates)` is called with its default `errors='raise'`: one
malformed value raises a ValueError and aborts the whole call.  A raw value
is embedded as either the calendar date it parses to or `malformed`.
`unique()` keeps the first occurrence of each distinct date; each date then
yields one dimension row with the derived attributes of lines 29-40. -/

/-- A calendar date (year, month 1-12, day 1-31). -/
structure CalDate where
  year : ℤ
  month : ℕ
  day : ℕ
deriving DecidableEq, Repr

/-- An element of the input date Series: a value `pd.to_datetime` parses to
a calendar date, or a malformed value on which it raises. -/
inductive RawDateVal where
  | wellFormed : CalDate → RawDateVal
  | malformed : RawDateVal
deriving DecidableEq, Repr

/-- `calendar.isleap`. -/
def isLeapYear (y : ℤ) : Bool :=
  (y % 4 == 0 && !(y % 100 == 0)) || y % 400 == 0

/-- `calendar.monthrange(year, month)[1]`: the last day of the month. -/
def daysInMonth (y : ℤ) (m : ℕ) : ℕ :=
  if m = 2 then (if isLeapYear y then 29 else 28)
  else if m = 4 ∨ m = 6 ∨ m = 9 ∨ m = 11 then 30
  else 31

/-- Days since 1970-01-01 (civil-calendar algorithm). -/
def daysFromCivil (d : CalDate) : ℤ :=
  let y : ℤ := if d.month ≤ 2 then d.year - 1 else d.year
  let era : ℤ := (if 0 ≤ y then y else y - 399) / 400
  let yoe : ℤ := y - era * 400
  let mp : ℤ := ((d.month : ℤ) + 9) % 12
  let doy : ℤ := (153 * mp + 2) / 5 + (d.day : ℤ) - 1
  let doe : ℤ := yoe * 365 + yoe / 4 - yoe / 100 + doy
  era * 146097 + doe - 719468

/-- `Timestamp.dayofweek`: Monday = 0 … Sunday = 6. -/
def dayOfWeek (d : CalDate) : ℕ :=
  ((daysFromCivil d + 3) % 7).toNat

/-- `Timestamp.strftime('%A')`. -/
def dayName (w : ℕ) : String :=
  (["Monday", "Tuesday", "Wednesday", "Thursday", "Friday", "Saturday",
    "Sunday"].getD w "")

/-- Ordinal day of the year, 1-based. -/
def dayOfYear (d : CalDate) : ℕ :=
  (List.range (d.month - 1)).foldl (fun acc m => acc + daysInMonth d.year (m + 1)) 0 + d.day

/-- Number of ISO weeks in a year (52 or 53). -/
def isoWeeksInYear (y : ℤ) : ℕ :=
  if dayOfWeek ⟨y, 1, 1⟩ == 3 || (isLeapYear y && dayOfWeek ⟨y, 1, 1⟩ == 2) then 53 else 52

/-- `Timestamp.isocalendar()[1]`: the ISO week number. -/
def isoWeek (d : CalDate) : ℕ :=
  let w : ℤ := ((dayOfYear d : ℤ) - ((dayOfWeek d : ℤ) + 1) + 10) / 7
  if w < 1 then isoWeeksInYear (d.year - 1)
  else if (isoWeeksInYear d.year : ℤ) < w then 1
  else w.toNat

/-- One date-dimension candidate row
(src/src/transformers/data_transformer.py:29-41). -/
structure DateDimRow where
  date : CalDate
  year : ℤ
  quarter : ℕ
  month : ℕ
  week : ℕ
  day : ℕ
  day_of_week : ℕ
  day_name : String
  is_weekend : ℕ
  is_quarter_end : ℕ
  is_year_end : ℕ
deriving DecidableEq, Repr

/-- The derived attributes of one date
(src/src/transformers/data_transformer.py:29-41). -/
def mkDateRow (d : CalDate) : DateDimRow :=
  { date := d
    year := d.year
    quarter := (d.month - 1) / 3 + 1
    month := d.month
    week := isoWeek d
    day := d.day
    day_of_week := dayOfWeek d
    day_name := dayName (dayOfWeek d)
    is_weekend := if 5 ≤ dayOfWeek d then 1 else 0
    is_quarter_end :=
      if (d.month = 3 ∨ d.month = 6 ∨ d.month = 9 ∨ d.month = 12) ∧
          d.day = daysInMonth d.year d.month then 1 else 0
    is_year_end := if d.month = 12 ∧ d.day = 31 then 1 else 0 }

/-- `Series.unique()`: distinct values, first occurrence kept. -/
def uniqueFirstAux {α : Type} [DecidableEq α] (seen : List α) : List α → List α
  | [] => []
  | x :: xs =>
      if x ∈ seen then uniqueFirstAux seen xs
      else x :: uniqueFirstAux (x :: seen) xs

/-- `Series.unique()` over the whole input. -/
def uniqueFirst {α : Type} [DecidableEq α] (l : List α) : List α :=
  uniqueFirstAux [] l

/-- `pd.to_datetime(dates)` with the default `errors='raise'`: a malformed
value anywhere in the Series raises (embedded as `Except.error`). -/
def pd_to_datetime : List RawDateVal → Except Unit (List CalDate)
  | [] => .ok []
  | RawDateVal.wellFormed d :: rest => (pd_to_datetime rest).map (fun ds => d :: ds)
  | RawDateVal.malformed :: _ => .error ()

/-- `DataTransformer.transform_date_dimension`
(src/src/transformers/data_transformer.py:12-45). -/
def transform_date_dimension (dates : List RawDateVal) : Except Unit (List DateDimRow) :=
  (pd_to_datetime dates).map (fun ds => (uniqueFirst ds).map mkDateRow)

/-- The rows of a successful transform (empty on the raising path). -/
def rowsOf (e : Except Unit (List DateDimRow)) : List DateDimRow :=
  match e with
  | .ok rows => rows
  | .error _ => []

/-- The calendar dates of the parseable values, in order. -/
def datesOf : List RawDateVal → List CalDate :=
  List.filterMap (fun v => match v with
    | RawDateVal.wellFormed d => some d
    | RawDateVal.malformed => none)

theorem pd_to_datetime_error (l : List RawDateVal) (h : RawDateVal.malformed ∈ l) :
    pd_to_datetime l = .error () := by
  induction l with
  | nil => cases h
  | cons x rest ih =>
      cases x with
      | malformed => rfl
      | wellFormed d =>
          have hr : RawDateVal.malformed ∈ rest := by
            rcases List.mem_cons.mp h with h1 | h1
            · cases h1
            · exact h1
          show (pd_to_datetime rest).map (fun ds => d :: ds) = .error ()
          rw [ih hr]
          rfl

theorem pd_to_datetime_ok (l : List RawDateVal) (h : RawDateVal.malformed ∉ l) :
    pd_to_datetime l = .ok (datesOf l) := by
  induction l with
  | nil => rfl
  | cons x rest ih =>
      cases x with
      | malformed => exact absurd (List.mem_cons_self _ _) h
      | wellFormed d =>
          have hr : RawDateVal.malformed ∉ rest := fun hm =>
            h (List.mem_cons_of_mem _ hm)
          show (pd_to_datetime rest).map (fun ds => d :: ds) = .ok (datesOf (RawDateVal.wellFormed d :: rest))
          rw [ih hr]
          rfl

theorem mem_datesOf (l : List RawDateVal) (d : CalDate) :
    d ∈ datesOf l ↔ RawDateVal.wellFormed d ∈ l := by
  unfold datesOf
  rw [List.mem_filterMap]
  constructor
  · rintro ⟨v, hv, heq⟩
    cases v with
    | wellFormed d0 =>
        simp only [Option.some.injEq] at heq
        exact heq ▸ hv
    | malformed => cases heq
  · intro hv
    exact ⟨RawDateVal.wellFormed d, hv, rfl⟩

theorem mem_uniqueFirstAux {α : Type} [DecidableEq α] (l : List α) :
    ∀ (seen : List α) (a : α), a ∈ uniqueFirstAux seen l ↔ a ∈ l ∧ a ∉ seen := by
  induction l with
  | nil => intro seen a; simp [uniqueFirstAux]
  | cons x xs ih =>
      intro seen a
      unfold uniqueFirstAux
      by_cases hx : x ∈ seen
      · rw [if_pos hx, ih]
        constructor
        · rintro ⟨ha, hs⟩
          exact ⟨List.mem_cons_of_mem x ha, hs⟩
        · rintro ⟨ha, hs⟩
          rcases List.mem_cons.mp ha with h | h
          · exact absurd (h ▸ hx) hs
          · exact ⟨h, hs⟩
      · rw [if_neg hx]
        constructor
        · intro ha
          rcases List.mem_cons.mp ha with h | h
          · exact ⟨h ▸ List.mem_cons_self x xs, h ▸ hx⟩
          · have := (ih (x :: seen) a).mp h
            exact ⟨List.mem_cons_of_mem x this.1,
              fun hs => this.2 (List.mem_cons_of_mem x hs)⟩
        · rintro ⟨ha, hs⟩
          rcases List.mem_cons.mp ha with h | h
          · exact h ▸ List.mem_cons_self x (uniqueFirstAux (x :: seen) xs)
          · by_cases hax : a = x
            · exact hax ▸ List.mem_cons_self x (uniqueFirstAux (x :: seen) xs)
            · refine List.mem_cons_of_mem x ((ih (x :: seen) a).mpr ⟨h, ?_⟩)
              intro hmem
              rcases List.mem_cons.mp hmem with h1 | h1
              · exact hax h1
              · exact hs h1

theorem nodup_uniqueFirstAux {α : Type} [DecidableEq α] (l : List α) :
    ∀ seen : List α, (uniqueFirstAux seen l).Nodup := by
  induction l with
  | nil => intro seen; exact List.nodup_nil
  | cons x xs ih =>
      intro seen
      unfold uniqueFirstAux
      by_cases hx : x ∈ seen
      · rw [if_pos hx]
        exact ih seen
      · rw [if_neg hx]
        rw [List.nodup_cons]
        refine ⟨?_, ih (x :: seen)⟩
        intro hmem
        exact ((mem_uniqueFirstAux xs (x :: seen) x).mp hmem).2 (List.mem_cons_self _ _)

/-- C9 counterexample: a collection containing one malformed date value does
not get that value rejected individually — `pd.to_datetime` (default
`errors='raise'`) raises and aborts the whole batch, wherever the malformed
value sits (src/src/transformers/data_transformer.py:25). -/
theorem transform_date_malformed_counterexample :
    transform_date_dimension
        [RawDateVal.wellFormed ⟨2024, 1, 1⟩, RawDateVal.malformed] = .error () ∧
      transform_date_dimension
        [RawDateVal.malformed, RawDateVal.wellFormed ⟨2024, 1, 2⟩] = .error () := by
  constructor <;> rfl

/-- C9 (amended): a malformed date value aborts the whole date-dimension
build (the call raises); it is not rejected individually.  For an input with
only well-formed values the builder does not raise and produces exactly one
dimension candidate per distinct calendar date of the input. -/
theorem transform_date_dimension_spec (dates datesBad : List RawDateVal) (d : CalDate)
    (hm : RawDateVal.malformed ∉ dates) (hb : RawDateVal.malformed ∈ datesBad) :
    transform_date_dimension datesBad = .error () ∧
    transform_date_dimension dates ≠ .error () ∧
    ((rowsOf (transform_date_dimension dates)).map (·.date)).Nodup ∧
    ((∃ row ∈ rowsOf (transform_date_dimension dates), row.date = d) ↔
      RawDateVal.wellFormed d ∈ dates) := by
  have hok : transform_date_dimension dates =
      .ok ((uniqueFirst (datesOf dates)).map mkDateRow) := by
    unfold transform_date_dimension
    rw [pd_to_datetime_ok dates hm]
    rfl
  have hdates : (rowsOf (transform_date_dimension dates)).map (·.date) =
      uniqueFirst (datesOf dates) := by
    rw [hok]
    show ((uniqueFirst (datesOf dates)).map mkDateRow).map (·.date) = _
    rw [List.map_map]
    exact List.map_id _
  refine ⟨?_, ?_, ?_, ?_⟩
  · unfold transform_date_dimension
    rw [pd_to_datetime_error datesBad hb]
    rfl
  · rw [hok]
    intro hcontr
    cases hcontr
  · rw [hdates]
    exact nodup_uniqueFirstAux _ _
  · constructor
    · rintro ⟨row, hrow, hrd⟩
      have : row.date ∈ (rowsOf (transform_date_dimension dates)).map (·.date) :=
        List.mem_map_of_mem _ hrow
      rw [hdates] at this
      rw [hrd] at this
      have := (mem_uniqueFirstAux (datesOf dates) [] d).mp this
      exact (mem_datesOf dates d).mp this.1
    · intro hd
      have hmem : d ∈ uniqueFirst (datesOf dates) :=
        (mem_uniqueFirstAux (datesOf dates) [] d).mpr
          ⟨(mem_datesOf dates d).mpr hd, List.not_mem_nil d⟩
      rw [hok]
      exact ⟨mkDateRow d, List.mem_map_of_mem mkDateRow hmem, rfl⟩

theorem transform_date_dimension_spec_witness :
    RawDateVal.malformed ∉
        [RawDateVal.wellFormed ⟨2024, 1, 1⟩, RawDateVal.wellFormed ⟨2024, 1, 2⟩,
          RawDateVal.wellFormed ⟨2024, 1, 1⟩] ∧
      RawDateVal.malformed ∈ [RawDateVal.wellFormed ⟨2024, 1, 1⟩, RawDateVal.malformed] ∧
      (transform_date_dimension [RawDateVal.wellFormed ⟨2024, 1, 1⟩,
          RawDateVal.malformed] = .error () ∧
        transform_date_dimension [RawDateVal.wellFormed ⟨2024, 1, 1⟩,
          RawDateVal.wellFormed ⟨2024, 1, 2⟩, RawDateVal.wellFormed ⟨2024, 1, 1⟩] ≠
          .error () ∧
        ((rowsOf (transform_date_dimension [RawDateVal.wellFormed ⟨2024, 1, 1⟩,
          RawDateVal.wellFormed ⟨2024, 1, 2⟩,
          RawDateVal.wellFormed ⟨2024, 1, 1⟩])).map (·.date)).Nodup ∧
        ((∃ row ∈ rowsOf (transform_date_dimension [RawDateVal.wellFormed ⟨2024, 1, 1⟩,
            RawDateVal.wellFormed ⟨2024, 1, 2⟩, RawDateVal.wellFormed ⟨2024, 1, 1⟩]),
            row.date = (⟨2024, 1, 1⟩ : CalDate)) ↔
          RawDateVal.wellFormed ⟨2024, 1, 1⟩ ∈
            [RawDateVal.wellFormed ⟨2024, 1, 1⟩, RawDateVal.wellFormed ⟨2024, 1, 2⟩,
              RawDateVal.wellFormed ⟨2024, 1, 1⟩])) :=
  ⟨by decide, by decide,
    transform_date_dimension_spec
      [RawDateVal.wellFormed ⟨2024, 1, 1⟩, RawDateVal.wellFormed ⟨2024, 1, 2⟩,
        RawDateVal.wellFormed ⟨2024, 1, 1⟩]
      [RawDateVal.wellFormed ⟨2024, 1, 1⟩, RawDateVal.malformed]
      ⟨2024, 1, 1⟩ (by decide) (by decide)⟩

/-! ## `SECFilingLoader.load_sec_filings` (src/src/loaders/sec_loader.py:92-197)

The fact rows are written with a SQLite
`INSERT ... ON CONFLICT(accession_number) DO UPDATE SET filing_url,
filing_text, filing_size` (lines 174-186): a record whose accession number
already exists updates exactly those three columns of the existing row and
creates no second row; `accession_number` is UNIQUE NOT NULL
(src/src/models/facts.py:103).  The upsert applies row by row in the order
of the VALUES list. -/

/-- One row of `fact_sec_filing` / one record of the insert list
(src/src/loaders/sec_loader.py:147-159). -/
structure SECRecord where
  company_id : ℤ
  filing_type_id : ℤ
  date_id : ℤ
  source_id : ℤ
  cik : Option String
  accession_number : String
  file_number : Option String
  accepted_date : Option String
  filing_url : Option String
  filing_text : Option String
  filing_size : Option ℤ
deriving DecidableEq, Repr

/-- The DO UPDATE branch: overwrite only filing_url, filing_text,
filing_size (src/src/loaders/sec_loader.py:177-183). -/
def updFilingRow (rec : SECRecord) (r : SECRecord) : SECRecord :=
  if r.accession_number == rec.accession_number then
    { r with
      filing_url := rec.filing_url
      filing_text := rec.filing_text
      filing_size := rec.filing_size }
  else r

/-- One row of the SQLite upsert: insert, or on an accession-number conflict
update the three content columns of the existing row. -/
def upsertFiling (store : List SECRecord) (rec : SECRecord) : List SECRecord :=
  if store.any (fun r => r.accession_number == rec.accession_number) then
    store.map (updFilingRow rec)
  else store ++ [rec]

/-- `SECFilingLoader.load_sec_filings` over an already-assembled record list
(src/src/loaders/sec_loader.py:170-197); batching only groups rows into
commits and does not change the no-failure final state. -/
def load_sec_filings (records : List SECRecord) (store : List SECRecord) :
    List SECRecord :=
  records.foldl upsertFiling store

/-- The accession numbers present in the store. -/
def accessionNumbers (store : List SECRecord) : List String :=
  store.map (·.accession_number)

/-- The UNIQUE constraint on `fact_sec_filing.accession_number`
(src/src/models/facts.py:103). -/
def UniqueAccessions (store : List SECRecord) : Prop :=
  (accessionNumbers store).Nodup

instance (store : List SECRecord) : Decidable (UniqueAccessions store) := by
  unfold UniqueAccessions
  infer_instance

theorem updFilingRow_accession (rec r : SECRecord) :
    (updFilingRow rec r).accession_number = r.accession_number := by
  unfold updFilingRow
  split <;> rfl

/-- C10: loading a filing whose accession number already exists creates no
second row for that accession number (row count and accession list are
unchanged), updates only the filing_url, filing_text and filing_size columns
of the existing row — its company_id, filing_type_id, date_id, source_id,
cik, file_number and accepted_date are untouched — and leaves every row with
a different accession number exactly as it was
(src/src/loaders/sec_loader.py:174-186). -/
theorem load_sec_filings_upsert_frame (store : List SECRecord) (rec r0 : SECRecord)
    (_hu : UniqueAccessions store) (hmem : r0 ∈ store)
    (hacc : r0.accession_number = rec.accession_number) :
    (load_sec_filings [rec] store).length = store.length ∧
    accessionNumbers (load_sec_filings [rec] store) = accessionNumbers store ∧
    updFilingRow rec r0 ∈ load_sec_filings [rec] store ∧
    (updFilingRow rec r0).accession_number = r0.accession_number ∧
    (updFilingRow rec r0).company_id = r0.company_id ∧
    (updFilingRow rec r0).filing_type_id = r0.filing_type_id ∧
    (updFilingRow rec r0).date_id = r0.date_id ∧
    (updFilingRow rec r0).source_id = r0.source_id ∧
    (updFilingRow rec r0).cik = r0.cik ∧
    (updFilingRow rec r0).file_number = r0.file_number ∧
    (updFilingRow rec r0).accepted_date = r0.accepted_date ∧
    (updFilingRow rec r0).filing_url = rec.filing_url ∧
    (updFilingRow rec r0).filing_text = rec.filing_text ∧
    (updFilingRow rec r0).filing_size = rec.filing_size ∧
    (∀ r ∈ store, r.accession_number ≠ rec.accession_number →
      r ∈ load_sec_filings [rec] store) := by
  have hany : store.any (fun r => r.accession_number == rec.accession_number) = true := by
    rw [List.any_eq_true]
    exact ⟨r0, hmem, by simp [hacc]⟩
  have hload : load_sec_filings [rec] store = store.map (updFilingRow rec) := by
    unfold load_sec_filings
    rw [List.foldl_cons, List.foldl_nil]
    unfold upsertFiling
    rw [if_pos hany]
  have hupd : updFilingRow rec r0 =
      { r0 with
        filing_url := rec.filing_url
        filing_text := rec.filing_text
        filing_size := rec.filing_size } := by
    unfold updFilingRow
    rw [if_pos (by simp [hacc])]
  refine ⟨?_, ?_, ?_, ?_, ?_, ?_, ?_, ?_, ?_, ?_, ?_, ?_, ?_, ?_, ?_⟩
  · rw [hload, List.length_map]
  · rw [hload]
    unfold accessionNumbers
    rw [List.map_map]
    exact List.map_congr_left (fun r _ => updFilingRow_accession rec r)
  · rw [hload]
    exact List.mem_map_of_mem _ hmem
  · exact updFilingRow_accession rec r0
  · rw [hupd]
  · rw [hupd]
  · rw [hupd]
  · rw [hupd]
  · rw [hupd]
  · rw [hupd]
  · rw [hupd]
  · rw [hupd]
  · rw [hupd]
  · rw [hupd]
  · intro r hr hne
    rw [hload]
    have : updFilingRow rec r = r := by
      unfold updFilingRow
      rw [if_neg (by simp [hne])]
    exact this ▸ List.mem_map_of_mem _ hr

/-- A filing row already in the store. -/
def storedFiling : SECRecord :=
  { company_id := 1
    filing_type_id := 2
    date_id := 3
    source_id := 4
    cik := some "0000320193"
    accession_number := "0000320193-24-000001"
    file_number := some "001-36743"
    accepted_date := some "2024-01-02T16:30:00"
    filing_url := some "https://old.example/a.htm"
    filing_text := some "old text"
    filing_size := some 8 }

/-- A second filing row with a different accession number. -/
def otherFiling : SECRecord :=
  { company_id := 9
    filing_type_id := 2
    date_id := 5
    source_id := 4
    cik := some "0000789019"
    accession_number := "0000789019-24-000002"
    file_number := none
    accepted_date := none
    filing_url := none
    filing_text := none
    filing_size := none }

/-- A reload of the first filing: same accession number, different keys and
content columns. -/
def reloadFiling : SECRecord :=
  { company_id := 7
    filing_type_id := 6
    date_id := 8
    source_id := 5
    cik := some "0000000007"
    accession_number := "0000320193-24-000001"
    file_number := some "999-99999"
    accepted_date := some "2025-03-04T10:00:00"
    filing_url := some "https://new.example/b.htm"
    filing_text := some "new text"
    filing_size := some 1234 }

theorem load_sec_filings_upsert_frame_witness :
    UniqueAccessions [storedFiling, otherFiling] ∧
      storedFiling ∈ [storedFiling, otherFiling] ∧
      storedFiling.accession_number = reloadFiling.accession_number ∧
      ((load_sec_filings [reloadFiling] [storedFiling, otherFiling]).length =
        [storedFiling, otherFiling].length ∧
      accessionNumbers (load_sec_filings [reloadFiling] [storedFiling, otherFiling]) =
        accessionNumbers [storedFiling, otherFiling] ∧
      updFilingRow reloadFiling storedFiling ∈
        load_sec_filings [reloadFiling] [storedFiling, otherFiling] ∧
      (updFilingRow reloadFiling storedFiling).accession_number =
        storedFiling.accession_number ∧
      (updFilingRow reloadFiling storedFiling).company_id = storedFiling.company_id ∧
      (updFilingRow reloadFiling storedFiling).filing_type_id =
        storedFiling.filing_type_id ∧
      (updFilingRow reloadFiling storedFiling).date_id = storedFiling.date_id ∧
      (updFilingRow reloadFiling storedFiling).source_id = storedFiling.source_id ∧
      (updFilingRow reloadFiling storedFiling).cik = storedFiling.cik ∧
      (updFilingRow reloadFiling storedFiling).file_number = storedFiling.file_number ∧
      (updFilingRow reloadFiling storedFiling).accepted_date =
        storedFiling.accepted_date ∧
      (updFilingRow reloadFiling storedFiling).filing_url = reloadFiling.filing_url ∧
      (updFilingRow reloadFiling storedFiling).filing_text = reloadFiling.filing_text ∧
      (updFilingRow reloadFiling storedFiling).filing_size = reloadFiling.filing_size ∧
      (∀ r ∈ [storedFiling, otherFiling],
        r.accession_number ≠ reloadFiling.accession_number →
        r ∈ load_sec_filings [reloadFiling] [storedFiling, otherFiling])) :=
  ⟨by decide, by decide, by decide,
    load_sec_filings_upsert_frame [storedFiling, otherFiling] reloadFiling storedFiling
      (by decide) (by decide) (by decide)⟩
